import Mathlib

/-!
Verification of the real-time/background voice bridge core.

Shallow embedding of the Python sources:
* `AudioProcessor` (audio output sequencer)         — voiceAgentAgentic/02_agent_tools/main.py
* `PendingTaskManager` (background task manager)    — mvoicefinal/src/pending_task_manager.py
* `VoiceService` turn tracking                      — mvoicefinal/src/voice_service.py
* `KeywordClassifier` (query router)                — mvoicefinal/voice/voice/src/query_classifier.py
* `extract_order_id` / `OrderAgent`                 — mvoicefinal/src/order_backend.py, order_agent.py
* `VoiceAgentBridge._process_user_transcript`       — mvoicefinal/src/voice_agent_bridge.py

Python `bytes` payloads are modelled as `List Nat`, `None` as `Option.none`.
Asynchronous completion of a background unit of work is modelled as an
explicit event delivered to the state machine (the outcome of the
`asyncio.wait_for` race), so every trace of manager operations is a list of
such events.
-/

namespace Spec2Proof


/-! ## Audio Output Sequencer

From `voiceAgentAgentic/02_agent_tools/main.py`, class `AudioProcessor`.
State: `playback_queue`, `playback_base`, `next_seq_num`.
-/

structure AudioPlaybackPacket where
  seq_num : Nat
  data : Option (List Nat)
deriving DecidableEq, Repr

structure AudioState where
  playback_queue : List AudioPlaybackPacket
  playback_base : Nat
  next_seq_num : Nat
deriving DecidableEq, Repr

/-- `__init__`: empty queue, `playback_base = 0`, `next_seq_num = 0`. -/
def initAudioState : AudioState := ⟨[], 0, 0⟩

/-- `_get_and_increase_seq_num`: return current `next_seq_num` and increment it. -/
def get_and_increase_seq_num (s : AudioState) : Nat × AudioState :=
  (s.next_seq_num, { s with next_seq_num := s.next_seq_num + 1 })

/-- `queue_audio`: append a packet carrying the next sequence number. -/
def queue_audio (d : Option (List Nat)) (s : AudioState) : AudioState :=
  let (seq, s') := get_and_increase_seq_num s
  { s' with playback_queue := s'.playback_queue ++ [⟨seq, d⟩] }

/-- `skip_pending_audio`: `playback_base = self._get_and_increase_seq_num()`. -/
def skip_pending_audio (s : AudioState) : AudioState :=
  let (seq, s') := get_and_increase_seq_num s
  { s' with playback_base := seq }

inductive AudioOp where
  | enqueue (d : Option (List Nat))
  | skip
deriving DecidableEq, Repr

def audioStep (s : AudioState) : AudioOp → AudioState
  | .enqueue d => queue_audio d s
  | .skip => skip_pending_audio s

def audioRunFrom (s : AudioState) (ops : List AudioOp) : AudioState :=
  ops.foldl audioStep s

def audioRun (ops : List AudioOp) : AudioState :=
  audioRunFrom initAudioState ops

/-- Python truthiness of `packet.data` in `if not packet or not packet.data`:
`None` and the empty byte string are falsy. -/
def dataFalsy : Option (List Nat) → Bool
  | none => true
  | some l => l.isEmpty

/-- Packet-granularity drain, following `_playback_callback`:
dequeue packets in order; a falsy-data packet (the end-of-stream sentinel)
stops playback; a packet with `seq_num < playback_base` is discarded;
every other packet is played.  The byte/frame chunking of the callback is
orthogonal to which packets are accepted and is not modelled. -/
def drainAll (base : Nat) : List AudioPlaybackPacket → List AudioPlaybackPacket
  | [] => []
  | p :: rest =>
    if dataFalsy p.data then []
    else if p.seq_num < base then drainAll base rest
    else p :: drainAll base rest

/-! ### Audio sequencer lemmas -/

/-- The cursor never runs ahead of the sequence counter. -/
def audioWF (s : AudioState) : Prop := s.playback_base ≤ s.next_seq_num

/-- Scenario-D style run: five skips (bringing `next_seq_num` to 5), two
enqueues that receive sequence numbers 5 and 6, one `skip_pending_audio`,
then one more enqueue. -/
def scenarioDOps : List AudioOp :=
  [AudioOp.skip, AudioOp.skip, AudioOp.skip, AudioOp.skip, AudioOp.skip,
   AudioOp.enqueue (some [1]), AudioOp.enqueue (some [2]),
   AudioOp.skip, AudioOp.enqueue (some [3])]

/-! ## Python float/str helpers -/

/-- Decimal digits of `n` (most significant first); `[0]` for `0`. -/
def natDigits (n : Nat) : List Char :=
  (Nat.toDigits 10 n)

/-- Smallest `k ∈ [1, 20]` with `d ∣ 10 ^ k`, if any. -/
def decExponent (d : Nat) : Option Nat :=
  (List.range 20).map (· + 1) |>.find? (fun k => 10 ^ k % d = 0)

/-- Rendering of a Python `float` by `str()` / f-string interpolation,
modelled for the exactly-representable decimals used in this code base:
`str(30.0) = "30.0"`, `str(0.1) = "0.1"`, `str(2.5) = "2.5"`.  An integer
value always gets a trailing `.0`; fractional digits have no trailing
zeros. -/
def fmtFloat (q : ℚ) : String :=
  let sign := if q < 0 then "-" else ""
  let num := q.num.natAbs
  let den := q.den
  if den = 1 then
    sign ++ String.mk (natDigits num) ++ ".0"
  else
    match decExponent den with
    | none => sign ++ String.mk (natDigits num) ++ "/" ++ String.mk (natDigits den)
    | some k =>
      let scaled := num * (10 ^ k / den)
      let ip := scaled / 10 ^ k
      let fracNat := scaled % 10 ^ k
      let fracDigits := natDigits fracNat
      let padded := List.replicate (k - fracDigits.length) '0' ++ fracDigits
      let trimmed := (padded.reverse.dropWhile (· = '0')).reverse
      let frac := if trimmed = [] then ['0'] else trimmed
      sign ++ String.mk (natDigits ip) ++ "." ++ String.mk frac

/-! ## Background Task Manager

From `mvoicefinal/src/pending_task_manager.py`.  The asynchronous completion
of a spawned unit of work (the resolution of `asyncio.wait_for` inside
`_run_with_tracking`) is modelled as an explicit `finish` event carrying the
outcome of that race; timestamps (`datetime.now()`) and elapsed durations are
supplied by the events.  Task ids are modelled by the `_task_counter` ordinal
(the `uuid4` suffix adds no information).  The single-shot wrapper delivers
its outcome while the task is still `RUNNING`; a cancelled task's wrapper is
interrupted by `CancelledError` (folded into `cancel_task` below), so the
`finish` step applies only to a `RUNNING` task.
-/

inductive TaskStatus where
  | pending | running | completed | failed | timeout | cancelled
deriving DecidableEq, Repr

/-- The four terminal statuses of the lifecycle. -/
def TaskStatus.isTerminal : TaskStatus → Bool
  | .completed | .failed | .timeout | .cancelled => true
  | .pending | .running => false

/-- `status in (TaskStatus.PENDING, TaskStatus.RUNNING)` as used by
`pending_count`, `cancel_task` and `shutdown`. -/
def TaskStatus.isActive : TaskStatus → Bool
  | .pending | .running => true
  | _ => false

structure TaskResult where
  success : Bool
  data : Option String
  error : Option String
  duration_ms : ℚ
deriving DecidableEq, Repr

structure PendingTask where
  query : String
  status : TaskStatus
  result : Option TaskResult
  created_at : ℚ
  /-- the `effective_timeout` captured by the `_run_with_tracking` closure -/
  timeout : ℚ
deriving DecidableEq, Repr

structure TaskManagerConfig where
  max_concurrent_tasks : Nat
  default_timeout : ℚ
  cleanup_completed_after : ℚ
deriving DecidableEq, Repr

def defaultTaskManagerConfig : TaskManagerConfig := ⟨3, 30, 60⟩

/-- A registered callback, carrying whether invoking it raises an exception
(`True`) or returns normally (`False`); `none` means not registered. -/
structure CallbackCfg where
  on_start : Option Bool
  on_complete : Option Bool
  on_error : Option Bool
deriving DecidableEq, Repr

inductive CallbackInvocation where
  | start (task_id : Nat) (query : String)
  | complete (task_id : Nat) (query : String) (result : TaskResult)
  | error (task_id : Nat) (query : String) (message : String)
deriving DecidableEq, Repr

structure ManagerState where
  config : TaskManagerConfig
  /-- the `_tasks` dict, in insertion order, keyed by the counter ordinal -/
  tasks : List (Nat × PendingTask)
  task_counter : Nat
  callbacks : CallbackCfg
  /-- invocations of registered callbacks that were attempted -/
  callback_log : List CallbackInvocation
deriving DecidableEq, Repr

def initManagerState (cfg : TaskManagerConfig) (cbs : CallbackCfg) : ManagerState :=
  ⟨cfg, [], 0, cbs, []⟩

def findTask (id : Nat) (l : List (Nat × PendingTask)) : Option PendingTask :=
  (l.find? (fun kt => kt.1 == id)).map (·.2)

def lookupTask (id : Nat) (s : ManagerState) : Option PendingTask :=
  findTask id s.tasks

/-- `pending_count`: number of tasks whose status is PENDING or RUNNING. -/
def pending_count (s : ManagerState) : Nat :=
  s.tasks.countP (fun kt => kt.2.status.isActive)

/-- `can_accept_task`: `pending_count < config.max_concurrent_tasks`. -/
def can_accept_task (s : ManagerState) : Bool :=
  pending_count s < s.config.max_concurrent_tasks

/-- A Python callback call: raises or returns. -/
def runCallback (raises : Bool) : Except String Unit :=
  if raises then Except.error "callback exception" else Except.ok ()

/-- The `try: await cb(...) except Exception: logger.error(...)` guard around
every callback invocation: the exception is swallowed, the invocation is
recorded either way. -/
def fireCallback (cb : Option Bool) (inv : CallbackInvocation)
    (log : List CallbackInvocation) : List CallbackInvocation :=
  match cb with
  | none => log
  | some raises =>
      match runCallback raises with
      | Except.ok _ => log ++ [inv]
      | Except.error _ => log ++ [inv]

/-- `effective_timeout = timeout or self.config.default_timeout` (Python
`or`: `None` and `0.0` both fall back to the default). -/
def effectiveTimeout (cfg : TaskManagerConfig) (timeout : Option ℚ) : ℚ :=
  match timeout with
  | none => cfg.default_timeout
  | some t => if t = 0 then cfg.default_timeout else t

/-- `spawn`: admission control, registration with status RUNNING, start
callback.  Returns the new task id, or `none` at capacity. -/
def spawnTask (query : String) (timeout : Option ℚ) (now : ℚ)
    (s : ManagerState) : Option Nat × ManagerState :=
  if ¬ can_accept_task s then (none, s)
  else
    let counter := s.task_counter + 1
    let id := counter
    let eff := effectiveTimeout s.config timeout
    let task : PendingTask :=
      { query := query, status := TaskStatus.running, result := none
        created_at := now, timeout := eff }
    let log := fireCallback s.callbacks.on_start (CallbackInvocation.start id query)
      s.callback_log
    (some id,
      { s with tasks := s.tasks ++ [(id, task)]
               task_counter := counter
               callback_log := log })

/-- How the `asyncio.wait_for` race inside `_run_with_tracking` resolved. -/
inductive WorkOutcome where
  | completes (data : Option String)
  | timesOut
  | fails (error_msg : String)
deriving DecidableEq, Repr

/-- `self._tasks[task_id].field = value`: transform the entry with the given
key, leave every other entry alone. -/
def updEntry (id : Nat) (f : PendingTask → PendingTask) (kt : Nat × PendingTask) :
    Nat × PendingTask :=
  if kt.1 = id then (kt.1, f kt.2) else kt

def updateTask (id : Nat) (f : PendingTask → PendingTask) (s : ManagerState) :
    ManagerState :=
  { s with tasks := s.tasks.map (updEntry id f) }

/-- The tail of `_run_with_tracking` once the awaited work resolves:
exactly one of the success / `TimeoutError` / generic-exception branches
runs, setting the terminal status, storing the result and firing the
matching callback (whose own exception is swallowed). -/
def finishTask (id : Nat) (outcome : WorkOutcome) (dur : ℚ) (s : ManagerState) :
    ManagerState :=
  match lookupTask id s with
  | none => s
  | some pending =>
    if pending.status = TaskStatus.running then
      match outcome with
      | WorkOutcome.completes d =>
          let result : TaskResult := ⟨true, d, none, dur⟩
          let s := updateTask id
            (fun t => { t with status := TaskStatus.completed, result := some result }) s
          let log := fireCallback s.callbacks.on_complete
            (CallbackInvocation.complete id pending.query result) s.callback_log
          { s with callback_log := log }
      | WorkOutcome.timesOut =>
          let msg := "Task timed out after " ++ fmtFloat pending.timeout ++ "s"
          let result : TaskResult := ⟨false, none, some msg, dur⟩
          let s := updateTask id
            (fun t => { t with status := TaskStatus.timeout, result := some result }) s
          let log := fireCallback s.callbacks.on_error
            (CallbackInvocation.error id pending.query
              ("Timeout after " ++ fmtFloat pending.timeout ++ "s")) s.callback_log
          { s with callback_log := log }
      | WorkOutcome.fails msg =>
          let result : TaskResult := ⟨false, none, some msg, dur⟩
          let s := updateTask id
            (fun t => { t with status := TaskStatus.failed, result := some result }) s
          let log := fireCallback s.callbacks.on_error
            (CallbackInvocation.error id pending.query msg) s.callback_log
          { s with callback_log := log }
    else s

/-- `cancel_task`: refuse missing or non-active tasks, else the task is
cancelled (its wrapper's `CancelledError` branch and the final
`pending.status = CANCELLED` assignment both write CANCELLED). -/
def cancelTask (id : Nat) (s : ManagerState) : Bool × ManagerState :=
  match lookupTask id s with
  | none => (false, s)
  | some pending =>
    if pending.status.isActive then
      (true, updateTask id (fun t => { t with status := TaskStatus.cancelled }) s)
    else (false, s)

/-- `cancel_all`: cancel every task in registry order. -/
def cancelAllTasks (s : ManagerState) : ManagerState :=
  (s.tasks.map (·.1)).foldl (fun s id => (cancelTask id s).2) s

/-- `shutdown`: cancel every PENDING/RUNNING task, then clear the registry. -/
def shutdownManager (s : ManagerState) : ManagerState :=
  let ids := (s.tasks.filter (fun kt => kt.2.status.isActive)).map (·.1)
  let s := ids.foldl (fun s id => (cancelTask id s).2) s
  { s with tasks := [] }

/-- `_cleanup_old_tasks`: drop terminal tasks older than the retention
window. -/
def cleanupOldTasks (now : ℚ) (s : ManagerState) : ManagerState :=
  { s with tasks := s.tasks.filter (fun kt =>
      ¬ (kt.2.status.isTerminal ∧ now - kt.2.created_at > s.config.cleanup_completed_after)) }

inductive ManagerEvent where
  | spawn (query : String) (timeout : Option ℚ) (now : ℚ)
  | finish (id : Nat) (outcome : WorkOutcome) (dur : ℚ)
  | cancel (id : Nat)
  | cancelAll
  | shutdown
  | cleanup (now : ℚ)

def managerStep (s : ManagerState) : ManagerEvent → ManagerState
  | .spawn q t now => (spawnTask q t now s).2
  | .finish id outcome dur => finishTask id outcome dur s
  | .cancel id => (cancelTask id s).2
  | .cancelAll => cancelAllTasks s
  | .shutdown => shutdownManager s
  | .cleanup now => cleanupOldTasks now s

def managerRunFrom (s : ManagerState) (tr : List ManagerEvent) : ManagerState :=
  tr.foldl managerStep s

def managerRun (cfg : TaskManagerConfig) (cbs : CallbackCfg)
    (tr : List ManagerEvent) : ManagerState :=
  managerRunFrom (initManagerState cfg cbs) tr

/-- Keys present in the registry are bounded by the counter and distinct
(true of every reachable manager state). -/
def ManagerWF (s : ManagerState) : Prop :=
  (∀ kt ∈ s.tasks, kt.1 ≤ s.task_counter) ∧ (s.tasks.map (·.1)).Nodup

/-! ### Timeout path (C6) -/

/-- `pat in s` for character lists (Python substring containment). -/
def isSubstrL (pat s : List Char) : Bool :=
  (List.range (s.length + 1)).any (fun i => pat.isPrefixOf (s.drop i))

/-- Python `pat in s` on strings. -/
def strContains (s pat : String) : Bool :=
  isSubstrL pat.toList s.toList

/-- The rational `0.1` (ten as an exact denominator). -/
def ratTenth : ℚ := ⟨1, 10, by decide, by decide⟩

/-! ### Callback isolation (C10) -/

/-- The same callback registration with every raise-flag cleared. -/
def stripRaises (c : CallbackCfg) : CallbackCfg :=
  ⟨c.on_start.map (fun _ => false),
   c.on_complete.map (fun _ => false),
   c.on_error.map (fun _ => false)⟩

/-! ## Turn-state tracking (VoiceService)

From `mvoicefinal/src/voice_service.py`: `request_response`,
`cancel_response` and the `RESPONSE_CREATED` / `RESPONSE_DONE` branches of
`_handle_event`.  Outbound `response.create` / `response.cancel` transport
calls are recorded in a log; a failing `response.create` is caught by the
source (`except (RuntimeError, ConnectionError)`) and changes no state, so
the log records the issued call either way.
-/

inductive VoiceCommand where
  | responseCreate
  | responseCancel
deriving DecidableEq, Repr

structure VoiceState where
  connected : Bool
  session_ready : Bool
  active_response : Bool
  response_api_done : Bool
  pending_response_request : Bool
  sent : List VoiceCommand
deriving DecidableEq, Repr

/-- `cancel_response`: no-op unless connected with an active response;
otherwise issue `response.cancel` (its errors are swallowed). -/
def cancel_response (s : VoiceState) : VoiceState :=
  if ¬ (s.connected = true ∧ s.active_response = true) then s
  else { s with sent := s.sent ++ [VoiceCommand.responseCancel] }

/-- `request_response`: bail out if the session is not ready; optionally
cancel first; if a response is active and not yet finalized, only set
`_pending_response_request`; otherwise issue `response.create`. -/
def request_response (interrupt : Bool) (s : VoiceState) : VoiceState :=
  if ¬ (s.connected = true ∧ s.session_ready = true) then s
  else
    let s := if interrupt then cancel_response s else s
    if s.active_response = true ∧ s.response_api_done = false then
      { s with pending_response_request := true }
    else
      { s with sent := s.sent ++ [VoiceCommand.responseCreate] }

/-- `RESPONSE_CREATED` branch of `_handle_event`. -/
def handle_response_created (s : VoiceState) : VoiceState :=
  { s with active_response := true, response_api_done := false }

/-- `RESPONSE_DONE` branch of `_handle_event`: finalize, then issue exactly
one deferred `response.create` when a request was pending. -/
def handle_response_done (s : VoiceState) : VoiceState :=
  let s := { s with active_response := false, response_api_done := true }
  if s.pending_response_request = true ∧ s.connected = true then
    { s with pending_response_request := false
             sent := s.sent ++ [VoiceCommand.responseCreate] }
  else s

/-- Number of `response.create` calls issued so far. -/
def countCreates (l : List VoiceCommand) : Nat :=
  l.countP (fun c => c == VoiceCommand.responseCreate)

/-! ## Python string and regex helpers

Character-level models of the Python `str` operations used by the query
classifier (`query_classifier.py`), `extract_order_id`
(`order_backend.py`) and the fallback agent (`order_agent.py`).  The
inputs of interest contain ASCII plus the German letters, so case mapping
is modelled for ASCII and `ÄÖÜäöü` (`ß` is only reached by `.upper()`
through `extract_order_id`, whose matches never contain it).
-/

def isAsciiUpperCh (c : Char) : Bool := 'A' ≤ c ∧ c ≤ 'Z'

def isAsciiLowerCh (c : Char) : Bool := 'a' ≤ c ∧ c ≤ 'z'

def pyLower (c : Char) : Char :=
  if isAsciiUpperCh c then Char.ofNat (c.toNat + 32)
  else if c = 'Ä' then 'ä' else if c = 'Ö' then 'ö' else if c = 'Ü' then 'ü' else c

def pyUpper (c : Char) : Char :=
  if isAsciiLowerCh c then Char.ofNat (c.toNat - 32)
  else if c = 'ä' then 'Ä' else if c = 'ö' then 'Ö' else if c = 'ü' then 'Ü' else c

/-- Python `\s` / `str.isspace` for the ASCII range. -/
def isPySpace (c : Char) : Bool :=
  c = ' ' ∨ c = '\t' ∨ c = '\n' ∨ c = '\x0d' ∨ c = '\x0b' ∨ c = '\x0c'

def isPyDigit (c : Char) : Bool := '0' ≤ c ∧ c ≤ '9'

def pyIsAlpha (c : Char) : Bool :=
  isAsciiUpperCh c ∨ isAsciiLowerCh c ∨
    c = 'Ä' ∨ c = 'Ö' ∨ c = 'Ü' ∨ c = 'ä' ∨ c = 'ö' ∨ c = 'ü' ∨ c = 'ß'

/-- Python `\w` (word character) over the alphabet above. -/
def isWordChar (c : Char) : Bool := pyIsAlpha c ∨ isPyDigit c ∨ c = '_'

/-- `str.strip()`. -/
def pyStrip (s : List Char) : List Char :=
  ((s.dropWhile isPySpace).reverse.dropWhile isPySpace).reverse

/-- `str.split()` (split on whitespace runs, no empty tokens); the fuel is
always sufficient because every step consumes at least one character. -/
def splitWSGo : Nat → List Char → List (List Char)
  | 0, _ => []
  | fuel + 1, s =>
      let s' := s.dropWhile isPySpace
      if s'.isEmpty then []
      else
        let tok := s'.takeWhile (fun c => ¬ isPySpace c)
        tok :: splitWSGo fuel (s'.drop tok.length)

def splitWS (s : List Char) : List (List Char) :=
  splitWSGo (s.length + 1) s

/-- `str.replace(pat, rep)`: left-to-right, non-overlapping; the fuel is
always sufficient because every step consumes at least one character
(`pat` is checked non-empty before consuming it). -/
def replaceAllGo (pat rep : List Char) : Nat → List Char → List Char
  | 0, s => s
  | _ + 1, [] => []
  | fuel + 1, c :: rest =>
      if pat ≠ [] ∧ pat.isPrefixOf (c :: rest) then
        rep ++ replaceAllGo pat rep fuel ((c :: rest).drop pat.length)
      else
        c :: replaceAllGo pat rep fuel rest

def replaceAll (pat rep s : List Char) : List Char :=
  replaceAllGo pat rep (s.length + 1) s

/-- Length of the run of characters satisfying `p` starting at `i`. -/
def countWhileFrom (p : Char → Bool) (s : List Char) (i : Nat) : Nat :=
  ((s.drop i).takeWhile p).length

def isWordAt (s : List Char) (i : Nat) : Bool :=
  match s.get? i with
  | some c => isWordChar c
  | none => false

/-- `\b`: a word/non-word boundary between positions `i - 1` and `i`. -/
def wordBoundary (s : List Char) (i : Nat) : Bool :=
  (if i = 0 then false else isWordAt s (i - 1)) != isWordAt s i

/-- Case-insensitive literal match of `cs` at position `i`. -/
def litCI : List Char → List Char → Nat → Bool
  | [], _, _ => true
  | c :: cs, s, i =>
      match s.get? i with
      | some d => pyLower d = pyLower c ∧ litCI cs s (i + 1)
      | none => false

/-- The regex fragments needed by this code base: literals (matched
case-insensitively, as every compiled pattern uses `re.IGNORECASE` or is
applied to lowercased text), alternation, concatenation, character-class
`*`/`+`, `.*`, `?`, `\b` and `^`. -/
inductive RePat where
  | eps
  | lit (cs : List Char)
  | alt (a b : RePat)
  | seq (a b : RePat)
  | starCls (p : Char → Bool)
  | plusCls (p : Char → Bool)
  | anyStar
  | opt (a : RePat)
  | bnd
  | bos

/-- All end positions of a match of the pattern starting at `i` (a match
exists iff the list is non-empty, which coincides with backtracking
search). -/
def matchEnds : RePat → List Char → Nat → List Nat
  | .eps, _, i => [i]
  | .lit cs, s, i => if litCI cs s i then [i + cs.length] else []
  | .alt a b, s, i => matchEnds a s i ++ matchEnds b s i
  | .seq a b, s, i => (matchEnds a s i).flatMap (fun j => matchEnds b s j)
  | .starCls p, s, i => (List.range (countWhileFrom p s i + 1)).map (i + ·)
  | .plusCls p, s, i => (List.range (countWhileFrom p s i)).map (fun k => i + k + 1)
  | .anyStar, s, i =>
      (List.range (countWhileFrom (fun c => ¬ c = '\n') s i + 1)).map (i + ·)
  | .opt a, s, i => i :: matchEnds a s i
  | .bnd, s, i => if wordBoundary s i then [i] else []
  | .bos, _, i => if i = 0 then [i] else []

/-- `re.search`: does the pattern match starting at any position? -/
def reSearch (p : RePat) (s : List Char) : Bool :=
  (List.range (s.length + 1)).any (fun i => !(matchEnds p s i).isEmpty)

def altLits : List (List Char) → RePat
  | [] => RePat.plusCls (fun _ => false)
  | [c] => RePat.lit c
  | c :: rest => RePat.alt (RePat.lit c) (altLits rest)

def sL (s : String) : List Char := s.toList

/-! ## Query Router (KeywordClassifier)

From `mvoicefinal/voice/voice/src/query_classifier.py` with the default
`ClassifierConfig`.  Float scores and confidences are modelled exactly in
`ℚ` (every value arising is a small dyadic/decimal, exact in both
models); rationals are written with explicit numerator/denominator so
that concrete runs evaluate inside the kernel.
-/

inductive QueryType where
  | SIMPLE
  | DATA_LOOKUP
  | CONVERSATIONAL
deriving DecidableEq, Repr

/-- Result of `classify`.  Every confidence value the source can produce
(`0.0, 0.4, 0.6, 0.8, 0.9, 1.0`, `min(0.4 + 0.2*matches, 1.0)` and
`1 - score` with half-point matches) is an exact multiple of `1/20`, so
the float is modelled exactly as that multiple: `confidence20` is the
confidence times 20. -/
structure ClassificationResult where
  query_type : QueryType
  confidence20 : Nat
  matched_keywords : List String
  reason : Option String
deriving DecidableEq, Repr

/-- `ClassifierConfig.confidence_threshold = 0.3`, in twentieths. -/
def confidence_threshold20 : Nat := 6

/-- `ClassifierConfig.data_keywords` defaults (already lowercase). -/
def data_keywords : List String :=
  ["customer", "machine", "machines", "address", "addresses",
   "serial", "serial number", "model", "equipment",
   "location", "site", "installation",
   "lookup", "look up", "find", "search", "get", "fetch",
   "show", "display", "list", "retrieve",
   "how many", "what is", "what are", "tell me about",
   "information about", "details about", "data for",
   "status of", "history of",
   "record", "records", "data", "database", "order", "orders",
   "product", "products", "inventory", "stock"]

/-- `ClassifierConfig.conversational_keywords` defaults. -/
def conversational_keywords : List String :=
  ["hello", "hi", "hey", "good morning", "good afternoon",
   "good evening", "how are you", "what\x27s up", "thanks",
   "thank you", "bye", "goodbye", "see you", "ok", "okay",
   "yes", "no", "sure", "alright", "got it", "understand",
   "help", "what can you do", "who are you"]

def dataPattern1 : RePat :=
  RePat.seq RePat.bos
    (RePat.seq (altLits (["what", "which", "where", "when", "how many", "how much"].map sL))
      (RePat.seq (RePat.plusCls isPySpace)
        (RePat.seq RePat.anyStar
          (altLits (["customer", "machine", "address", "order", "product"].map sL)))))

def dataPattern2 : RePat :=
  RePat.seq (altLits (["customer", "machine", "address", "order"].map sL))
    (RePat.seq (RePat.starCls isPySpace)
      (RePat.seq (RePat.opt (altLits (["id", "number", "#"].map sL)))
        (RePat.seq (RePat.starCls isPySpace) (RePat.plusCls isPyDigit))))

def dataPattern3 : RePat :=
  RePat.seq (altLits (["find", "search", "lookup", "get", "show"].map sL))
    (RePat.seq (RePat.plusCls isPySpace)
      (RePat.seq (RePat.opt (RePat.seq (RePat.lit (sL "me")) (RePat.plusCls isPySpace)))
        (RePat.seq (RePat.opt (RePat.seq (RePat.lit (sL "the")) (RePat.plusCls isPySpace)))
          (altLits (["customer", "machine", "address", "data"].map sL)))))

def dataPattern4 : RePat :=
  RePat.seq (altLits (["information", "details", "data", "status"].map sL))
    (RePat.seq (RePat.plusCls isPySpace)
      (RePat.seq (altLits (["about", "for", "on"].map sL)) (RePat.plusCls isPySpace)))

/-- The compiled `data_question_patterns`, paired with their source text
(used only inside the `reason` field). -/
def dataPatterns : List (RePat × String) :=
  [(dataPattern1,
    "^(what|which|where|when|how many|how much)\\s+.*(customer|machine|address|order|product)"),
   (dataPattern2, "(customer|machine|address|order)\\s*(id|number|#)?\\s*\\d+"),
   (dataPattern3, "(find|search|lookup|get|show)\\s+(me\\s+)?(the\\s+)?(customer|machine|address|data)"),
   (dataPattern4, "(information|details|data|status)\\s+(about|for|on)\\s+")]

/-- The keyword-occurrence count of `_score_data_keywords`, in half
points: a matched keyword counts 1 (= 2 halves) plus an extra half point
when it is multi-word. -/
def matchesHalves (text_lower : List Char) : Nat :=
  (data_keywords.map (fun kw =>
    if isSubstrL (sL kw) text_lower then
      (if (sL kw).contains ' ' then 3 else 2)
    else 0)).sum

/-- `_score_data_keywords`, in twentieths: 0 matches -> 0, 1 -> 0.4,
2 -> 0.6, otherwise `min(0.4 + 0.2 * matches, 1.0)` (note
`8 + 2 * halves = (0.4 + 0.2 * matches) * 20`). -/
def score_data_keywords20 (text_lower : List Char) : Nat :=
  let halves := matchesHalves text_lower
  if halves = 0 then 0
  else if halves = 2 then 8
  else if halves = 4 then 12
  else min (8 + 2 * halves) 20

/-- `_get_matched_keywords`. -/
def get_matched_keywords (text_lower : List Char) : List String :=
  data_keywords.filter (fun kw => isSubstrL (sL kw) text_lower)

/-- `"{:.2f}"` rendering of a score given in twentieths. -/
def fmt2of20 (x : Nat) : String :=
  let n := x * 5
  let fd := natDigits (n % 100)
  String.mk (natDigits (n / 100)) ++ "." ++
    String.mk (List.replicate (2 - fd.length) '0' ++ fd)

/-- The tail of `classify` after the conversational quick exit: regex
patterns in order, then the keyword score against the threshold. -/
def classifyRest (text_lower : List Char) : ClassificationResult :=
  match dataPatterns.find? (fun pr => reSearch pr.1 text_lower) with
  | some pr =>
      ⟨QueryType.DATA_LOOKUP, 18, [], some ("Matched data pattern: " ++ pr.2)⟩
  | none =>
      let ds := score_data_keywords20 text_lower
      if confidence_threshold20 ≤ ds then
        ⟨QueryType.DATA_LOOKUP, min ds 20, get_matched_keywords text_lower,
         some ("Keyword score: " ++ fmt2of20 ds)⟩
      else
        ⟨QueryType.SIMPLE, 20 - ds, [], some "No data lookup indicators found"⟩

/-- `KeywordClassifier.classify` with the default configuration.  The
source loops over the conversational keywords and exits on the first one
contained in the text when the data score is below 0.2 (= 4 twentieths);
since the score does not depend on the keyword, a non-exiting loop falls
through to the pattern stage exactly as modelled here. -/
def classify (text : String) : ClassificationResult :=
  if (pyStrip (sL text)).isEmpty then
    ⟨QueryType.SIMPLE, 20, [], some "Empty query"⟩
  else
    let text_lower := pyStrip ((sL text).map pyLower)
    match conversational_keywords.find? (fun kw => isSubstrL (sL kw) text_lower) with
    | some kw =>
        if score_data_keywords20 text_lower < 4 then
          ⟨QueryType.CONVERSATIONAL, 16, [kw], some "Matched conversational keyword"⟩
        else classifyRest text_lower
    | none => classifyRest text_lower

/-! ## Order id extraction (order_backend.py)

`_ORDER_ID_RE = re.compile(r"\bORD[-\s]?\d\x7b3,\x7d\b", re.IGNORECASE)` and
`extract_order_id`.  The hand-compiled matcher below follows the regex
with backtracking: the optional separator is tried greedily, and the
greedy digit run backtracks against the trailing `\b` (any shorter run of
at least three digits is followed by a digit, i.e. a word character, so
the maximal run with a boundary check is exact).
-/

def isOrdSep (c : Char) : Bool := c = '-' ∨ isPySpace c

/-- End position of a `\bORD[-\s]?\d\x7b3,\x7d\b` match starting at `i`, if
any. -/
def ordMatchEnd (s : List Char) (i : Nat) : Option Nat :=
  if wordBoundary s i ∧ litCI (sL "ord") s i then
    let j := i + 3
    let withSep : Option Nat :=
      match s.get? j with
      | some c =>
          if isOrdSep c then
            let n := countWhileFrom isPyDigit s (j + 1)
            if 3 ≤ n ∧ wordBoundary s (j + 1 + n) then some (j + 1 + n) else none
          else none
      | none => none
    match withSep with
    | some e => some e
    | none =>
        let n := countWhileFrom isPyDigit s j
        if 3 ≤ n ∧ wordBoundary s (j + n) then some (j + n) else none
  else none

/-- Leftmost match of the order-id regex: `(start, end)`. -/
def findOrdMatch (s : List Char) : Option (Nat × Nat) :=
  (List.range (s.length + 1)).findSome?
    (fun i => (ordMatchEnd s i).map (fun e => (i, e)))

def sliceL (s : List Char) (i e : Nat) : List Char := (s.drop i).take (e - i)

/-- `extract_order_id`: normalize the matched group via
`.upper().replace(" ", "").replace("ORD", "ORD-").replace("ORD--", "ORD-")`. -/
def extract_order_id (text : String) : Option String :=
  match findOrdMatch (sL text) with
  | none => none
  | some (i, e) =>
      let raw := (sliceL (sL text) i e).map pyUpper
      let raw := replaceAll (sL " ") [] raw
      let raw := replaceAll (sL "ORD") (sL "ORD-") raw
      let raw := replaceAll (sL "ORD--") (sL "ORD-") raw
      some (String.mk raw)

/-! ## Deterministic fallback agent (order_agent.py) -/

inductive OrderAgentActionType where
  | ASK_IDENTIFIER
  | LOOKUP
  | PASS_THROUGH
deriving DecidableEq, Repr

structure OrderLookupRequest where
  order_id : Option String
  customer_name : Option String
deriving DecidableEq, Repr

structure OrderAgentAction where
  type : OrderAgentActionType
  say : Option String
  lookup : Option OrderLookupRequest
deriving DecidableEq, Repr

structure OrderConversationState where
  awaiting_identifier : Bool
  last_intent : Option String
  last_customer_name : Option String
  last_order_id : Option String
deriving DecidableEq, Repr

def initOrderConversationState : OrderConversationState := ⟨false, none, none, none⟩

/-- `_ORDER_INTENT_RE`: the domain-intent word list, each matched between
word boundaries, case-insensitively. -/
def orderIntentWords : List String :=
  ["order", "orders",
   "bestellung", "bestellungen", "bestellen", "bestellt",
   "lieferung", "lieferstatus", "lieferzeit", "zustellung",
   "versand", "sendung", "paket", "tracking",
   "status"]

def orderIntentPat : RePat :=
  RePat.seq RePat.bnd (RePat.seq (altLits (orderIntentWords.map sL)) RePat.bnd)

/-- The character class `[A-Za-zÄÖÜäöüß\-]` of the name patterns. -/
def nameChar (c : Char) : Bool := pyIsAlpha c ∨ c = '-'

def namePhrasesEnglish : List String := ["my name is", "i am", "this is"]

def namePhrasesGerman : List String := ["ich bin", "mein name ist"]

/-- Largest `k ∈ [1, n]` with a word boundary at `start + k` (the greedy
second name token backtracking against the trailing `\b`). -/
def greedyBoundary (s : List Char) (start n : Nat) : Option Nat :=
  ((List.range n).reverse.map (· + 1)).find? (fun k => wordBoundary s (start + k))

/-- One prefix-phrase name pattern
`(?:phrase)\s+([A-Za-zÄÖÜäöüß\-]+\s+[A-Za-zÄÖÜäöüß\-]+)\b` tried at
position `i`, alternatives in order; returns `group(1)`.  The `\s+` and
first-token runs are forced (their classes are disjoint from the name
class); only the second token backtracks, against the final `\b`. -/
def namePatternAt (phrases : List (List Char)) (s : List Char) (i : Nat) :
    Option (List Char) :=
  phrases.findSome? (fun ph =>
    if litCI ph s i then
      let j := i + ph.length
      let nws := countWhileFrom isPySpace s j
      if nws = 0 then none else
      let t1s := j + nws
      let n1 := countWhileFrom nameChar s t1s
      if n1 = 0 then none else
      let wss := t1s + n1
      let nws2 := countWhileFrom isPySpace s wss
      if nws2 = 0 then none else
      let t2s := wss + nws2
      let n2 := countWhileFrom nameChar s t2s
      if n2 = 0 then none else
      match greedyBoundary s t2s n2 with
      | none => none
      | some k => some (sliceL s t1s (t2s + k))
    else none)

/-- `re.search` of a name pattern: leftmost start position wins. -/
def searchNamePattern (phrases : List String) (s : List Char) :
    Option (List Char) :=
  (List.range (s.length + 1)).findSome? (namePatternAt (phrases.map sL) s)

/-- `_maybe_extract_customer_name`. -/
def maybe_extract_customer_name (text : String) : Option String :=
  if (sL text).isEmpty then none
  else
    let cleaned := pyStrip (sL text)
    match searchNamePattern namePhrasesEnglish cleaned with
    | some g => some (String.mk (pyStrip g))
    | none =>
    match searchNamePattern namePhrasesGerman cleaned with
    | some g => some (String.mk (pyStrip g))
    | none =>
        let tokens := splitWS cleaned
        if tokens.length = 2 ∧
            tokens.all (fun t => ¬ t.isEmpty ∧ pyIsAlpha (t.headD ' ')) then
          some (String.mk cleaned)
        else none

/-- `OrderAgent.decide`: returns the updated conversation state and the
action. -/
def decide (st : OrderConversationState) (transcript : String) :
    OrderConversationState × OrderAgentAction :=
  let text := String.mk (pyStrip (sL transcript))
  if (sL text).isEmpty then (st, ⟨OrderAgentActionType.PASS_THROUGH, none, none⟩)
  else
    let order_id := extract_order_id text
    let customer_name := maybe_extract_customer_name text
    let is_order_related := reSearch orderIntentPat (sL text) ∨ st.awaiting_identifier
    if ¬ is_order_related then (st, ⟨OrderAgentActionType.PASS_THROUGH, none, none⟩)
    else
      let st := if st.awaiting_identifier then { st with awaiting_identifier := false } else st
      match order_id with
      | some oid =>
          ({ st with last_order_id := some oid },
           ⟨OrderAgentActionType.LOOKUP,
            some "Einen Moment bitte, ich prüfe den Status Ihrer Bestellung.",
            some ⟨some oid, none⟩⟩)
      | none =>
        match customer_name with
        | some cn =>
            ({ st with last_customer_name := some cn },
             ⟨OrderAgentActionType.LOOKUP,
              some "Danke. Einen Moment bitte, ich schaue Ihre letzten Bestellungen nach.",
              some ⟨none, some cn⟩⟩)
        | none =>
            ({ st with awaiting_identifier := true },
             ⟨OrderAgentActionType.ASK_IDENTIFIER,
              some ("Gerne. Können Sie mir bitte Ihre Bestellnummer nennen, " ++
                "zum Beispiel ORD-<nummer>, oder alternativ Ihren Namen?"),
              none⟩)

/-! ## Bridge transcript interception (voice_agent_bridge.py)

`VoiceAgentBridge._process_user_transcript`, OrderAgent path (interception
mode: `self.agent` is an `OrderAgent`).  Python attribute access on the
`OrderAgentActionType` enum is modelled by `getOrderAgentActionTypeMember`,
which raises `AttributeError` for a missing member — line 408 of the
source reads `OrderAgentActionType.LIST_ORDERS`, which the enum
(order_agent.py, lines 11-14) does not define.  Effects on the voice
service and the task manager are collected in a list. -/

inductive BridgeEffect where
  | systemMessage (text : String)
  | requestResponse (interrupt : Bool)
  | spawnLookup (query : String) (req : Option OrderLookupRequest)
deriving DecidableEq, Repr

inductive PyErr where
  | attributeError (name : String)
deriving DecidableEq, Repr

/-- Attribute lookup on the `OrderAgentActionType` enum class: only the
three defined members resolve; anything else raises `AttributeError`. -/
def getOrderAgentActionTypeMember : String → Except PyErr OrderAgentActionType
  | "ASK_IDENTIFIER" => Except.ok OrderAgentActionType.ASK_IDENTIFIER
  | "LOOKUP" => Except.ok OrderAgentActionType.LOOKUP
  | "PASS_THROUGH" => Except.ok OrderAgentActionType.PASS_THROUGH
  | n => Except.error (PyErr.attributeError n)

/-- `_process_user_transcript` (OrderAgent path).  `can_accept` is the
task manager's `can_accept_task` at the moment of the capacity check. -/
def process_user_transcript (st : OrderConversationState) (can_accept : Bool)
    (text : String) :
    Except PyErr (OrderConversationState × List BridgeEffect) := do
  let (st', action) := decide st text
  if action.type = OrderAgentActionType.PASS_THROUGH then
    return (st', [])
  else if action.type = OrderAgentActionType.ASK_IDENTIFIER ∧ action.say.isSome then
    return (st',
      [BridgeEffect.systemMessage
        ("User said: \"" ++ text ++ "\"\n\n" ++
         "Aufgabe: Stellen Sie dem Kunden genau diese Frage. " ++
         "Sagen Sie ausschließlich diesen Text, nichts hinzufügen:\n" ++
         action.say.getD ""),
       BridgeEffect.requestResponse true])
  else do
    let lookupMember ← getOrderAgentActionTypeMember "LOOKUP"
    let listOrdersMember ← getOrderAgentActionTypeMember "LIST_ORDERS"
    let ackEffects :=
      if (action.type = lookupMember ∨ action.type = listOrdersMember)
          ∧ action.lookup.isSome then
        (if action.say.isSome then
          [BridgeEffect.systemMessage
            ("User said: \"" ++ text ++ "\"\n\n" ++
             "Aufgabe: Sagen Sie dem Kunden genau diesen Satz. " ++
             "Sagen Sie ausschließlich diesen Text, nichts hinzufügen:\n" ++
             action.say.getD ""),
           BridgeEffect.requestResponse true]
        else [])
      else []
    if ¬ can_accept then
      return (st', ackEffects ++
        [BridgeEffect.systemMessage
          ("User said: \"" ++ text ++ "\"\n\nAufgabe: Sagen Sie dem Kunden kurz: " ++
           "Ich bin gerade mit einer anderen Abfrage beschäftigt. " ++
           "Bitte versuchen Sie es gleich noch einmal."),
         BridgeEffect.requestResponse false])
    else
      return (st', ackEffects ++ [BridgeEffect.spawnLookup text action.lookup])

lemma audioStep_wf (s : AudioState) (op : AudioOp) (h : audioWF s) :
    audioWF (audioStep s op) := by
  cases op with
  | enqueue d =>
      simpa [audioStep, queue_audio, get_and_increase_seq_num, audioWF] using
        le_trans h (Nat.le_succ _)
  | skip =>
      simp [audioStep, skip_pending_audio, get_and_increase_seq_num, audioWF]

lemma audioStep_base_mono (s : AudioState) (op : AudioOp) (h : audioWF s) :
    s.playback_base ≤ (audioStep s op).playback_base := by
  cases op with
  | enqueue d => simp [audioStep, queue_audio, get_and_increase_seq_num]
  | skip => simpa [audioStep, skip_pending_audio, get_and_increase_seq_num] using h

lemma audioRunFrom_wf (ops : List AudioOp) (s : AudioState) (h : audioWF s) :
    audioWF (audioRunFrom s ops) := by
  induction ops generalizing s with
  | nil => simpa [audioRunFrom] using h
  | cons op rest ih =>
      simpa [audioRunFrom] using ih (audioStep s op) (audioStep_wf s op h)

lemma audioRunFrom_base_mono (ops : List AudioOp) (s : AudioState) (h : audioWF s) :
    s.playback_base ≤ (audioRunFrom s ops).playback_base := by
  induction ops generalizing s with
  | nil => simp [audioRunFrom]
  | cons op rest ih =>
      calc s.playback_base ≤ (audioStep s op).playback_base :=
            audioStep_base_mono s op h
        _ ≤ (audioRunFrom (audioStep s op) rest).playback_base :=
            ih (audioStep s op) (audioStep_wf s op h)
        _ = (audioRunFrom s (op :: rest)).playback_base := by
            simp [audioRunFrom]

lemma audioRun_wf (ops : List AudioOp) : audioWF (audioRun ops) :=
  audioRunFrom_wf ops initAudioState (by simp [audioWF, initAudioState])

/-- The drain keeps, in order, exactly the pre-sentinel packets whose
sequence number is at or past the cursor. -/
lemma drainAll_eq_filter (base : Nat) (q : List AudioPlaybackPacket) :
    drainAll base q =
      (q.takeWhile (fun p => !dataFalsy p.data)).filter
        (fun p => base ≤ p.seq_num) := by
  induction q with
  | nil => simp [drainAll]
  | cons p rest ih =>
      by_cases hf : dataFalsy p.data
      · simp [drainAll, hf, List.takeWhile]
      · by_cases hlt : p.seq_num < base
        · have : ¬ base ≤ p.seq_num := Nat.not_le_of_lt hlt
          simp [drainAll, hf, hlt, List.takeWhile, List.filter, this, ih]
        · have : base ≤ p.seq_num := Nat.le_of_not_lt hlt
          simp [drainAll, hf, hlt, List.takeWhile, List.filter, this, ih]

/-- **C2.** For every sequence of `queue_audio`/`skip_pending_audio` calls:
the playback cursor is monotonically non-decreasing across any further
calls, `queue_audio` never changes the cursor (only `skip_pending_audio`
mutates it), and at drain time a data packet is played iff its sequence
number is at or past `playback_base` when it is dequeued. -/
theorem audio_cursor_monotone_and_drain_iff
    (ops extra : List AudioOp) (d : Option (List Nat)) :
    (audioRun ops).playback_base ≤ (audioRun (ops ++ extra)).playback_base
    ∧ (audioStep (audioRun ops) (AudioOp.enqueue d)).playback_base
        = (audioRun ops).playback_base
    ∧ ∀ p ∈ (audioRun ops).playback_queue.takeWhile (fun p => !dataFalsy p.data),
        (p ∈ drainAll (audioRun ops).playback_base (audioRun ops).playback_queue
          ↔ (audioRun ops).playback_base ≤ p.seq_num) := by
  refine ⟨?_, ?_, ?_⟩
  · have h := audioRunFrom_base_mono extra (audioRun ops) (audioRun_wf ops)
    simpa [audioRun, audioRunFrom, List.foldl_append] using h
  · simp [audioStep, queue_audio, get_and_increase_seq_num]
  · intro p hp
    rw [drainAll_eq_filter]
    simp only [List.mem_filter, decide_eq_true_eq]
    constructor
    · rintro ⟨-, hle⟩; exact hle
    · intro hle; exact ⟨hp, hle⟩

/-- **C3 (counterexample).** In a run where the two queued payloads received
sequence numbers 5 and 6, a `skip_pending_audio` followed by one more
`queue_audio` assigns the new packet sequence number 8, not 7: `skip`
itself consumes a sequence number (`playback_base` becomes 7 and
`next_seq_num` 8). -/
theorem scenarioD_new_packet_seq_is_8_not_7 :
    (audioRun scenarioDOps).playback_queue =
      [⟨5, some [1]⟩, ⟨6, some [2]⟩, ⟨8, some [3]⟩]
    ∧ (8 : Nat) ≠ 7 := by
  constructor
  · rfl
  · decide

/-- **C3 (amended).** After packets 5 and 6 are queued, `skip_pending_audio`
sets `playback_base` to 7 and the next `queue_audio` assigns sequence
number 8 (skip consumes sequence number 7); draining then discards packets
5 and 6 and plays exactly the newly enqueued packet. -/
theorem scenarioD_drain_discards_5_6_plays_new :
    (audioRun scenarioDOps).playback_base = 7
    ∧ (audioRun scenarioDOps).playback_queue =
        [⟨5, some [1]⟩, ⟨6, some [2]⟩, ⟨8, some [3]⟩]
    ∧ drainAll (audioRun scenarioDOps).playback_base
        (audioRun scenarioDOps).playback_queue = [⟨8, some [3]⟩] := by
  refine ⟨rfl, rfl, rfl⟩

/-! ### Concurrency-cap invariant (C1) -/

lemma countP_map_le_of_pointwise {α : Type} (g : α → α) (p : α → Bool)
    (l : List α) (h : ∀ a ∈ l, p (g a) = true → p a = true) :
    (l.map g).countP p ≤ l.countP p := by
  induction l with
  | nil => simp
  | cons a l ih =>
      have hrest := ih (fun a ha => h a (List.mem_cons_of_mem _ ha))
      rw [List.map_cons, List.countP_cons, List.countP_cons]
      by_cases hga : p (g a) = true
      · rw [if_pos hga, if_pos (h a (List.mem_cons_self a l) hga)]
        omega
      · rw [if_neg hga]
        split <;> omega

lemma countP_filter_le {α : Type} (p q : α → Bool) (l : List α) :
    (l.filter q).countP p ≤ l.countP p := by
  induction l with
  | nil => simp
  | cons a l ih =>
      rw [List.filter_cons]
      by_cases hq : q a = true
      · rw [if_pos hq, List.countP_cons, List.countP_cons]
        split <;> omega
      · rw [if_neg hq, List.countP_cons]
        split <;> omega

lemma updateTask_count_le (id : Nat) (f : PendingTask → PendingTask)
    (s : ManagerState)
    (hf : ∀ t, (f t).status.isActive = true → t.status.isActive = true) :
    pending_count (updateTask id f s) ≤ pending_count s := by
  unfold pending_count updateTask
  exact countP_map_le_of_pointwise _ _ _ (by
    intro a _ ha
    by_cases hid : a.1 = id
    · rw [show updEntry id f a = (a.1, f a.2) from by simp [updEntry, hid]] at ha
      exact hf a.2 ha
    · rwa [show updEntry id f a = a from by simp [updEntry, hid]] at ha)

lemma pending_count_set_log (s : ManagerState) (log : List CallbackInvocation) :
    pending_count { s with callback_log := log } = pending_count s := rfl

lemma cancelTask_count_le (id : Nat) (s : ManagerState) :
    pending_count (cancelTask id s).2 ≤ pending_count s := by
  unfold cancelTask
  cases h : lookupTask id s with
  | none => exact le_refl _
  | some p =>
      dsimp only
      by_cases hp : p.status.isActive = true
      · rw [if_pos hp]
        exact updateTask_count_le id _ s (by intro t ht; simp [TaskStatus.isActive] at ht)
      · rw [if_neg hp]

lemma finishTask_count_le (id : Nat) (outcome : WorkOutcome) (dur : ℚ)
    (s : ManagerState) :
    pending_count (finishTask id outcome dur s) ≤ pending_count s := by
  unfold finishTask
  cases h : lookupTask id s with
  | none => exact le_refl _
  | some p =>
      dsimp only
      by_cases hp : p.status = TaskStatus.running
      · rw [if_pos hp]
        cases outcome with
        | completes d =>
            dsimp only
            have := updateTask_count_le id
              (fun t => { t with
                status := TaskStatus.completed
                result := some (TaskResult.mk true d none dur) }) s
              (by intro t ht; simp [TaskStatus.isActive] at ht)
            exact this
        | timesOut =>
            dsimp only
            have := updateTask_count_le id
              (fun t => { t with
                status := TaskStatus.timeout
                result := some (TaskResult.mk false none
                  (some ("Task timed out after " ++ fmtFloat p.timeout ++ "s")) dur) }) s
              (by intro t ht; simp [TaskStatus.isActive] at ht)
            exact this
        | fails msg =>
            dsimp only
            have := updateTask_count_le id
              (fun t => { t with
                status := TaskStatus.failed
                result := some (TaskResult.mk false none (some msg) dur) }) s
              (by intro t ht; simp [TaskStatus.isActive] at ht)
            exact this
      · rw [if_neg hp]

lemma foldlCancel_count_le (ids : List Nat) (s : ManagerState) :
    pending_count (ids.foldl (fun s id => (cancelTask id s).2) s) ≤ pending_count s := by
  induction ids generalizing s with
  | nil => simp
  | cons id rest ih =>
      calc pending_count ((id :: rest).foldl (fun s id => (cancelTask id s).2) s)
          = pending_count (rest.foldl (fun s id => (cancelTask id s).2) (cancelTask id s).2) := by
            simp
        _ ≤ pending_count (cancelTask id s).2 := ih _
        _ ≤ pending_count s := cancelTask_count_le id s

lemma cancelTask_config (id : Nat) (s : ManagerState) :
    (cancelTask id s).2.config = s.config := by
  unfold cancelTask
  cases lookupTask id s with
  | none => rfl
  | some p =>
      dsimp only
      by_cases hp : p.status.isActive = true
      · rw [if_pos hp]
        rfl
      · rw [if_neg hp]

lemma spawnTask_config (q : String) (t : Option ℚ) (now : ℚ) (s : ManagerState) :
    (spawnTask q t now s).2.config = s.config := by
  unfold spawnTask
  by_cases h : can_accept_task s = true
  · rw [if_neg (not_not_intro h)]
  · rw [if_pos h]

lemma finishTask_config (id : Nat) (outcome : WorkOutcome) (dur : ℚ)
    (s : ManagerState) : (finishTask id outcome dur s).config = s.config := by
  unfold finishTask
  cases lookupTask id s with
  | none => rfl
  | some p =>
      dsimp only
      by_cases hp : p.status = TaskStatus.running
      · rw [if_pos hp]
        cases outcome <;> rfl
      · rw [if_neg hp]

lemma foldlCancel_config (ids : List Nat) (s : ManagerState) :
    (ids.foldl (fun s id => (cancelTask id s).2) s).config = s.config := by
  induction ids generalizing s with
  | nil => rfl
  | cons id rest ih =>
      simpa [cancelTask_config] using ih (cancelTask id s).2

lemma managerStep_config (s : ManagerState) (e : ManagerEvent) :
    (managerStep s e).config = s.config := by
  cases e with
  | spawn q t now => exact spawnTask_config q t now s
  | finish id outcome dur => exact finishTask_config id outcome dur s
  | cancel id => exact cancelTask_config id s
  | cancelAll => exact foldlCancel_config _ s
  | shutdown =>
      show (shutdownManager s).config = s.config
      unfold shutdownManager
      simpa using foldlCancel_config
        ((s.tasks.filter (fun kt => kt.2.status.isActive)).map (·.1)) s
  | cleanup now => rfl

lemma managerRunFrom_config (tr : List ManagerEvent) (s : ManagerState) :
    (managerRunFrom s tr).config = s.config := by
  induction tr generalizing s with
  | nil => rfl
  | cons e rest ih =>
      simpa [managerRunFrom, managerStep_config] using ih (managerStep s e)

lemma can_accept_iff (s : ManagerState) :
    can_accept_task s = true ↔ pending_count s < s.config.max_concurrent_tasks := by
  simp [can_accept_task]

lemma spawnTask_count_le (q : String) (t : Option ℚ) (now : ℚ) (s : ManagerState)
    (h : pending_count s ≤ s.config.max_concurrent_tasks) :
    pending_count (spawnTask q t now s).2 ≤ s.config.max_concurrent_tasks := by
  unfold spawnTask
  by_cases hacc : can_accept_task s = true
  · have hlt := (can_accept_iff s).1 hacc
    rw [if_neg (not_not_intro hacc)]
    dsimp only
    unfold pending_count at *
    rw [List.countP_append]
    have hone : List.countP (fun kt => kt.2.status.isActive)
        [((s.task_counter + 1 : Nat),
          ({ query := q, status := TaskStatus.running, result := none,
             created_at := now,
             timeout := effectiveTimeout s.config t } : PendingTask))] = 1 := by
      simp [List.countP, List.countP.go, TaskStatus.isActive]
    rw [hone]
    omega
  · rw [if_pos hacc]
    exact h

lemma pending_count_step_le (s : ManagerState) (e : ManagerEvent)
    (h : pending_count s ≤ s.config.max_concurrent_tasks) :
    pending_count (managerStep s e) ≤ s.config.max_concurrent_tasks := by
  cases e with
  | spawn q t now => exact spawnTask_count_le q t now s h
  | finish id outcome dur =>
      have := finishTask_count_le id outcome dur s
      show pending_count (finishTask id outcome dur s) ≤ _
      omega
  | cancel id =>
      have := cancelTask_count_le id s
      show pending_count (cancelTask id s).2 ≤ _
      omega
  | cancelAll =>
      have := foldlCancel_count_le ((s.tasks.map (·.1))) s
      show pending_count (cancelAllTasks s) ≤ _
      unfold cancelAllTasks
      omega
  | shutdown =>
      show pending_count (shutdownManager s) ≤ _
      unfold shutdownManager
      simp [pending_count]
  | cleanup now =>
      have := countP_filter_le (fun kt => kt.2.status.isActive)
        (fun kt => ¬ (kt.2.status.isTerminal ∧
          now - kt.2.created_at > s.config.cleanup_completed_after)) s.tasks
      show pending_count (cleanupOldTasks now s) ≤ _
      unfold cleanupOldTasks pending_count at *
      simp only []
      omega

lemma managerRun_count_le (cfg : TaskManagerConfig) (cbs : CallbackCfg)
    (tr : List ManagerEvent) :
    pending_count (managerRun cfg cbs tr) ≤ cfg.max_concurrent_tasks := by
  unfold managerRun
  induction tr using List.reverseRecOn with
  | nil => simp [managerRunFrom, initManagerState, pending_count]
  | append_singleton rest e ih =>
      have hcfg' : (managerRunFrom (initManagerState cfg cbs) rest).config = cfg :=
        managerRunFrom_config rest (initManagerState cfg cbs)
      have := pending_count_step_le (managerRunFrom (initManagerState cfg cbs) rest) e
        (by rw [hcfg']; exact ih)
      rw [hcfg'] at this
      simpa [managerRunFrom, List.foldl_append] using this

/-- **C1.** For every sequence of manager events, the number of tracked
tasks whose status is PENDING or RUNNING never exceeds
`config.max_concurrent_tasks`; and a `spawn` call made while that count
already equals the cap returns `None` and leaves the manager state
unchanged (no task is created or registered). -/
theorem spawn_respects_concurrency_cap
    (cfg : TaskManagerConfig) (cbs : CallbackCfg) (tr : List ManagerEvent)
    (q : String) (t : Option ℚ) (now : ℚ) :
    pending_count (managerRun cfg cbs tr) ≤ cfg.max_concurrent_tasks
    ∧ (pending_count (managerRun cfg cbs tr) = cfg.max_concurrent_tasks →
        spawnTask q t now (managerRun cfg cbs tr) = (none, managerRun cfg cbs tr)) := by
  have hcfg : (managerRun cfg cbs tr).config = cfg :=
    managerRunFrom_config tr (initManagerState cfg cbs)
  have hinv := managerRun_count_le cfg cbs tr
  refine ⟨hinv, ?_⟩
  intro hfull
  have hnacc : can_accept_task (managerRun cfg cbs tr) = false := by
    rw [Bool.eq_false_iff]
    intro hacc
    have := (can_accept_iff _).1 hacc
    rw [hcfg, hfull] at this
    omega
  unfold spawnTask
  simp [hnacc]

/-- Closed instance of C1: with `cap = 1` and one accepted task, the next
`spawn` is rejected and the state is unchanged. -/
theorem spawn_respects_concurrency_cap_witness :
    pending_count (managerRun ⟨1, 30, 60⟩ ⟨none, none, none⟩
        [ManagerEvent.spawn "find order" none 0]) ≤ 1
    ∧ spawnTask "second query" none 0
        (managerRun ⟨1, 30, 60⟩ ⟨none, none, none⟩
          [ManagerEvent.spawn "find order" none 0])
      = (none, managerRun ⟨1, 30, 60⟩ ⟨none, none, none⟩
          [ManagerEvent.spawn "find order" none 0]) := by
  refine ⟨(spawn_respects_concurrency_cap ⟨1, 30, 60⟩ ⟨none, none, none⟩
    [ManagerEvent.spawn "find order" none 0] "second query" none 0).1, ?_⟩
  exact (spawn_respects_concurrency_cap ⟨1, 30, 60⟩ ⟨none, none, none⟩
    [ManagerEvent.spawn "find order" none 0] "second query" none 0).2 rfl

/-! ### Terminal-state stability (C5) -/

lemma findTask_nil (id : Nat) : findTask id [] = none := rfl

lemma findTask_cons (id k : Nat) (a : PendingTask) (l : List (Nat × PendingTask)) :
    findTask id ((k, a) :: l) = if k = id then some a else findTask id l := by
  unfold findTask
  by_cases h : k = id
  · have hb : (k == id) = true := by simpa using h
    simp [List.find?, hb, h]
  · have hb : (k == id) = false := by simpa using h
    simp [List.find?, hb, h]

lemma updEntry_fst (id : Nat) (f : PendingTask → PendingTask)
    (kt : Nat × PendingTask) : (updEntry id f kt).1 = kt.1 := by
  unfold updEntry
  split <;> rfl

lemma updEntry_self (id : Nat) (f : PendingTask → PendingTask) (k : Nat)
    (a : PendingTask) (h : k = id) : updEntry id f (k, a) = (k, f a) := by
  simp [updEntry, h]

lemma updEntry_ne (id : Nat) (f : PendingTask → PendingTask) (k : Nat)
    (a : PendingTask) (h : ¬ k = id) : updEntry id f (k, a) = (k, a) := by
  simp [updEntry, h]

lemma findTask_append_some {id : Nat} {l1 : List (Nat × PendingTask)} {t : PendingTask}
    (l2 : List (Nat × PendingTask)) (h : findTask id l1 = some t) :
    findTask id (l1 ++ l2) = some t := by
  induction l1 with
  | nil => simp [findTask_nil] at h
  | cons ka l1 ih =>
      obtain ⟨k, a⟩ := ka
      rw [List.cons_append, findTask_cons]
      rw [findTask_cons] at h
      by_cases hk : k = id
      · rw [if_pos hk]; rw [if_pos hk] at h; exact h
      · rw [if_neg hk]; rw [if_neg hk] at h; exact ih h

lemma findTask_append_none {id : Nat} {l1 : List (Nat × PendingTask)}
    (l2 : List (Nat × PendingTask)) (h : findTask id l1 = none) :
    findTask id (l1 ++ l2) = findTask id l2 := by
  induction l1 with
  | nil => simp
  | cons ka l1 ih =>
      obtain ⟨k, a⟩ := ka
      rw [List.cons_append, findTask_cons]
      rw [findTask_cons] at h
      by_cases hk : k = id
      · rw [if_pos hk] at h; exact absurd h (by simp)
      · rw [if_neg hk]; rw [if_neg hk] at h; exact ih h

lemma findTask_update_self (id : Nat) (f : PendingTask → PendingTask)
    (l : List (Nat × PendingTask)) :
    findTask id (l.map (updEntry id f)) = (findTask id l).map f := by
  induction l with
  | nil => simp [findTask_nil]
  | cons ka l ih =>
      obtain ⟨k, a⟩ := ka
      by_cases hk : k = id
      · rw [List.map_cons, updEntry_self id f k a hk, findTask_cons, findTask_cons,
          if_pos hk, if_pos hk]
        rfl
      · rw [List.map_cons, updEntry_ne id f k a hk, findTask_cons, findTask_cons,
          if_neg hk, if_neg hk]
        exact ih

lemma findTask_update_ne {id id' : Nat} (f : PendingTask → PendingTask)
    (l : List (Nat × PendingTask)) (h : id' ≠ id) :
    findTask id' (l.map (updEntry id f)) = findTask id' l := by
  induction l with
  | nil => simp
  | cons ka l ih =>
      obtain ⟨k, a⟩ := ka
      by_cases hk : k = id
      · have hk' : ¬ k = id' := by
          rw [hk]
          intro he
          exact h he.symm
        rw [List.map_cons, updEntry_self id f k a hk, findTask_cons, findTask_cons,
          if_neg hk', if_neg hk']
        exact ih
      · rw [List.map_cons, updEntry_ne id f k a hk, findTask_cons, findTask_cons]
        by_cases hk2 : k = id'
        · rw [if_pos hk2, if_pos hk2]
        · rw [if_neg hk2, if_neg hk2]
          exact ih

lemma findTask_eq_none_iff (id : Nat) (l : List (Nat × PendingTask)) :
    findTask id l = none ↔ id ∉ l.map (·.1) := by
  induction l with
  | nil => simp [findTask_nil]
  | cons ka l ih =>
      obtain ⟨k, a⟩ := ka
      rw [findTask_cons]
      by_cases hk : k = id
      · simp [hk]
      · simp only [if_neg hk, List.map_cons, List.mem_cons, ih]
        constructor
        · intro hni hor
          rcases hor with he | hm
          · exact hk he.symm
          · exact hni hm
        · intro hni hm
          exact hni (Or.inr hm)

lemma mem_keys_of_findTask_some {id : Nat} {l : List (Nat × PendingTask)}
    {t : PendingTask} (h : findTask id l = some t) : id ∈ l.map (·.1) := by
  by_contra hni
  rw [← findTask_eq_none_iff] at hni
  rw [hni] at h
  exact Option.noConfusion h

lemma findTask_filter_none {id : Nat} {l : List (Nat × PendingTask)}
    (q : Nat × PendingTask → Bool) (h : findTask id l = none) :
    findTask id (l.filter q) = none := by
  rw [findTask_eq_none_iff] at h ⊢
  intro hm
  apply h
  simp only [List.mem_map] at hm ⊢
  obtain ⟨kt, hkt, hk⟩ := hm
  exact ⟨kt, List.mem_of_mem_filter hkt, hk⟩

lemma findTask_filter_of_nodup {id : Nat} {l : List (Nat × PendingTask)}
    {t : PendingTask} (q : Nat × PendingTask → Bool)
    (hnd : (l.map (·.1)).Nodup) (h : findTask id l = some t) :
    findTask id (l.filter q) = none ∨ findTask id (l.filter q) = some t := by
  induction l with
  | nil => simp [findTask_nil] at h
  | cons ka l ih =>
      obtain ⟨k, a⟩ := ka
      rw [List.map_cons, List.nodup_cons] at hnd
      rw [findTask_cons] at h
      rw [List.filter_cons]
      by_cases hk : k = id
      · rw [if_pos hk] at h
        by_cases hq : q (k, a) = true
        · rw [if_pos hq, findTask_cons, if_pos hk]
          exact Or.inr h
        · rw [if_neg hq]
          left
          rw [findTask_eq_none_iff]
          intro hm
          apply hnd.1
          rw [hk]
          simp only [List.mem_map] at hm ⊢
          obtain ⟨kt, hkt, hkeq⟩ := hm
          exact ⟨kt, List.mem_of_mem_filter hkt, hkeq⟩
      · rw [if_neg hk] at h
        by_cases hq : q (k, a) = true
        · rw [if_pos hq, findTask_cons, if_neg hk]
          exact ih hnd.2 h
        · rw [if_neg hq]
          exact ih hnd.2 h

lemma terminal_not_active {st : TaskStatus} (h : st.isTerminal = true) :
    st.isActive = false := by
  cases st <;> simp_all [TaskStatus.isTerminal, TaskStatus.isActive]

lemma terminal_ne_running {st : TaskStatus} (h : st.isTerminal = true) :
    st ≠ TaskStatus.running := by
  cases st <;> simp_all [TaskStatus.isTerminal]

lemma keys_map_updEntry (id : Nat) (f : PendingTask → PendingTask)
    (l : List (Nat × PendingTask)) :
    (l.map (updEntry id f)).map (·.1) = l.map (·.1) := by
  induction l with
  | nil => rfl
  | cons a l ih => simp [updEntry_fst, ih]

lemma cancelTask_cases (id : Nat) (s : ManagerState) :
    (cancelTask id s).2 = s ∨
      (cancelTask id s).2 =
        updateTask id (fun t => { t with status := TaskStatus.cancelled }) s := by
  unfold cancelTask
  cases lookupTask id s with
  | none => exact Or.inl rfl
  | some p =>
      dsimp only
      by_cases hp : p.status.isActive = true
      · rw [if_pos hp]
        exact Or.inr rfl
      · rw [if_neg hp]
        exact Or.inl rfl

lemma finishTask_cases (id : Nat) (outcome : WorkOutcome) (dur : ℚ)
    (s : ManagerState) :
    finishTask id outcome dur s = s ∨
      ∃ f : PendingTask → PendingTask, (∀ t, (f t).status.isTerminal = true) ∧
        (finishTask id outcome dur s).tasks = s.tasks.map (updEntry id f) ∧
        (finishTask id outcome dur s).task_counter = s.task_counter := by
  unfold finishTask
  cases lookupTask id s with
  | none => exact Or.inl rfl
  | some p =>
      dsimp only
      by_cases hp : p.status = TaskStatus.running
      · rw [if_pos hp]
        cases outcome with
        | completes d =>
            refine Or.inr ⟨fun t => { t with
              status := TaskStatus.completed
              result := some (TaskResult.mk true d none dur) }, ?_, rfl, rfl⟩
            intro t
            rfl
        | timesOut =>
            refine Or.inr ⟨fun t => { t with
              status := TaskStatus.timeout
              result := some (TaskResult.mk false none
                (some ("Task timed out after " ++ fmtFloat p.timeout ++ "s")) dur) },
              ?_, rfl, rfl⟩
            intro t
            rfl
        | fails msg =>
            refine Or.inr ⟨fun t => { t with
              status := TaskStatus.failed
              result := some (TaskResult.mk false none (some msg) dur) },
              ?_, rfl, rfl⟩
            intro t
            rfl
      · rw [if_neg hp]
        exact Or.inl rfl

lemma updateTask_WF (id : Nat) (f : PendingTask → PendingTask) (s : ManagerState)
    (h : ManagerWF s) : ManagerWF (updateTask id f s) := by
  constructor
  · intro kt hkt
    rw [updateTask] at hkt
    simp only [List.mem_map] at hkt
    obtain ⟨kt0, hkt0, heq⟩ := hkt
    have := h.1 kt0 hkt0
    rw [← heq, updEntry_fst]
    exact this
  · show ((s.tasks.map (updEntry id f)).map (·.1)).Nodup
    rw [keys_map_updEntry]
    exact h.2

lemma cancelTask_WF (id : Nat) (s : ManagerState) (h : ManagerWF s) :
    ManagerWF (cancelTask id s).2 := by
  rcases cancelTask_cases id s with hc | hc
  · rw [hc]; exact h
  · rw [hc]; exact updateTask_WF _ _ _ h

lemma cancelTask_counter (id : Nat) (s : ManagerState) :
    (cancelTask id s).2.task_counter = s.task_counter := by
  rcases cancelTask_cases id s with hc | hc
  · rw [hc]
  · rw [hc]
    rfl

lemma foldlCancel_WF (ids : List Nat) (s : ManagerState) (h : ManagerWF s) :
    ManagerWF (ids.foldl (fun s id => (cancelTask id s).2) s) := by
  induction ids generalizing s with
  | nil => exact h
  | cons id rest ih =>
      simpa using ih (cancelTask id s).2 (cancelTask_WF id s h)

lemma foldlCancel_counter (ids : List Nat) (s : ManagerState) :
    (ids.foldl (fun s id => (cancelTask id s).2) s).task_counter = s.task_counter := by
  induction ids generalizing s with
  | nil => rfl
  | cons id rest ih =>
      simpa [cancelTask_counter] using ih (cancelTask id s).2

lemma managerStep_WF (s : ManagerState) (e : ManagerEvent) (h : ManagerWF s) :
    ManagerWF (managerStep s e) := by
  cases e with
  | spawn q t now =>
      show ManagerWF (spawnTask q t now s).2
      unfold spawnTask
      by_cases hacc : can_accept_task s = true
      · rw [if_neg (not_not_intro hacc)]
        dsimp only
        constructor
        · intro kt hkt
          rcases List.mem_append.1 hkt with hmem | hmem
          · exact le_trans (h.1 kt hmem) (Nat.le_succ _)
          · rcases List.mem_singleton.1 hmem with rfl
            exact le_refl _
        · show ((s.tasks ++ [(s.task_counter + 1,
            ({ query := q, status := TaskStatus.running, result := none,
               created_at := now,
               timeout := effectiveTimeout s.config t } : PendingTask))]).map (·.1)).Nodup
          rw [List.map_append]
          apply List.Nodup.append h.2 (List.nodup_singleton _)
          intro x hx hx1
          rcases List.mem_singleton.1 hx1 with rfl
          simp only [List.mem_map] at hx
          obtain ⟨kt, hkt, hfst⟩ := hx
          have := h.1 kt hkt
          omega
      · rw [if_pos hacc]
        exact h
  | finish id outcome dur =>
      show ManagerWF (finishTask id outcome dur s)
      rcases finishTask_cases id outcome dur s with hc | ⟨f, _, htasks, hcnt⟩
      · rw [hc]; exact h
      · constructor
        · intro kt hkt
          rw [htasks] at hkt
          simp only [List.mem_map] at hkt
          obtain ⟨kt0, hkt0, heq⟩ := hkt
          rw [hcnt, ← heq, updEntry_fst]
          exact h.1 kt0 hkt0
        · show ((finishTask id outcome dur s).tasks.map (·.1)).Nodup
          rw [htasks, keys_map_updEntry]
          exact h.2
  | cancel id => exact cancelTask_WF id s h
  | cancelAll => exact foldlCancel_WF _ s h
  | shutdown =>
      show ManagerWF (shutdownManager s)
      unfold shutdownManager
      exact ⟨by intro kt hkt; simp at hkt, by simp⟩
  | cleanup now =>
      constructor
      · intro kt hkt
        exact h.1 kt (List.mem_of_mem_filter hkt)
      · show (((s.tasks.filter _)).map (·.1)).Nodup
        exact List.Nodup.sublist (List.Sublist.map _ (List.filter_sublist _)) h.2

lemma managerStep_counter_le (s : ManagerState) (e : ManagerEvent) :
    s.task_counter ≤ (managerStep s e).task_counter := by
  cases e with
  | spawn q t now =>
      show s.task_counter ≤ (spawnTask q t now s).2.task_counter
      unfold spawnTask
      by_cases hacc : can_accept_task s = true
      · rw [if_neg (not_not_intro hacc)]
        exact Nat.le_succ _
      · rw [if_pos hacc]
  | finish id outcome dur =>
      show s.task_counter ≤ (finishTask id outcome dur s).task_counter
      rcases finishTask_cases id outcome dur s with hc | ⟨f, _, _, hcnt⟩
      · rw [hc]
      · rw [hcnt]
  | cancel id =>
      show s.task_counter ≤ (cancelTask id s).2.task_counter
      rw [cancelTask_counter]
  | cancelAll =>
      show s.task_counter ≤ (cancelAllTasks s).task_counter
      unfold cancelAllTasks
      rw [foldlCancel_counter]
  | shutdown =>
      show s.task_counter ≤ (shutdownManager s).task_counter
      unfold shutdownManager
      simpa using Nat.le_of_eq (foldlCancel_counter _ s).symm
  | cleanup now => exact le_refl _

lemma lookup_of_lookup_set_log (s : ManagerState) (log : List CallbackInvocation)
    (id : Nat) : lookupTask id { s with callback_log := log } = lookupTask id s := rfl

lemma spawnTask_lookup_pres (q : String) (tmo : Option ℚ) (now : ℚ)
    {s : ManagerState} {id : Nat} {t : PendingTask}
    (hl : lookupTask id s = some t) :
    lookupTask id (spawnTask q tmo now s).2 = some t := by
  unfold spawnTask
  by_cases hacc : can_accept_task s = true
  · rw [if_neg (not_not_intro hacc)]
    exact findTask_append_some _ hl
  · rw [if_pos hacc]
    exact hl

lemma cancelTask_lookup_terminal (id' : Nat) {s : ManagerState} {id : Nat}
    {t : PendingTask} (hl : lookupTask id s = some t)
    (ht : t.status.isTerminal = true) :
    lookupTask id (cancelTask id' s).2 = some t := by
  unfold cancelTask
  cases hc : lookupTask id' s with
  | none => exact hl
  | some p =>
      dsimp only
      by_cases hp : p.status.isActive = true
      · rw [if_pos hp]
        by_cases he : id = id'
        · subst he
          rw [hl] at hc
          injection hc with hc
          subst hc
          rw [terminal_not_active ht] at hp
          exact absurd hp (by simp)
        · show findTask id (s.tasks.map (updEntry id' _)) = some t
          rw [findTask_update_ne _ _ he]
          exact hl
      · rw [if_neg hp]
        exact hl

lemma foldlCancel_lookup_terminal (ids : List Nat) {s : ManagerState} {id : Nat}
    {t : PendingTask} (hl : lookupTask id s = some t)
    (ht : t.status.isTerminal = true) :
    lookupTask id (ids.foldl (fun s id => (cancelTask id s).2) s) = some t := by
  induction ids generalizing s with
  | nil => exact hl
  | cons id' rest ih =>
      simpa using ih (cancelTask_lookup_terminal id' hl ht)

lemma finishTask_lookup_terminal (id' : Nat) (outcome : WorkOutcome) (dur : ℚ)
    {s : ManagerState} {id : Nat} {t : PendingTask}
    (hl : lookupTask id s = some t) (ht : t.status.isTerminal = true) :
    lookupTask id (finishTask id' outcome dur s) = some t := by
  unfold finishTask
  cases hc : lookupTask id' s with
  | none => exact hl
  | some p =>
      dsimp only
      by_cases hp : p.status = TaskStatus.running
      · by_cases he : id = id'
        · subst he
          rw [hl] at hc
          injection hc with hc
          subst hc
          exact absurd hp (terminal_ne_running ht)
        · rw [if_pos hp]
          cases outcome <;>
            · show findTask id (s.tasks.map (updEntry id' _)) = some t
              rw [findTask_update_ne _ _ he]
              exact hl
      · rw [if_neg hp]
        exact hl

lemma terminal_stable_step (e : ManagerEvent) {s : ManagerState} {id : Nat}
    {t : PendingTask} (hnd : (s.tasks.map (·.1)).Nodup)
    (hl : lookupTask id s = some t) (ht : t.status.isTerminal = true) :
    lookupTask id (managerStep s e) = none ∨
      lookupTask id (managerStep s e) = some t := by
  cases e with
  | spawn q tmo now => exact Or.inr (spawnTask_lookup_pres q tmo now hl)
  | finish id' outcome dur => exact Or.inr (finishTask_lookup_terminal id' outcome dur hl ht)
  | cancel id' => exact Or.inr (cancelTask_lookup_terminal id' hl ht)
  | cancelAll => exact Or.inr (foldlCancel_lookup_terminal _ hl ht)
  | shutdown => exact Or.inl rfl
  | cleanup now => exact findTask_filter_of_nodup _ hnd hl

lemma step_lookup_none (e : ManagerEvent) {s : ManagerState} {id : Nat}
    (hn : lookupTask id s = none) (hid : id ≤ s.task_counter) :
    lookupTask id (managerStep s e) = none := by
  cases e with
  | spawn q tmo now =>
      show lookupTask id (spawnTask q tmo now s).2 = none
      unfold spawnTask
      by_cases hacc : can_accept_task s = true
      · rw [if_neg (not_not_intro hacc)]
        show findTask id (s.tasks ++ [_]) = none
        rw [findTask_append_none _ hn, findTask_cons]
        rw [if_neg (by omega)]
        rfl
      · rw [if_pos hacc]
        exact hn
  | finish id' outcome dur =>
      show lookupTask id (finishTask id' outcome dur s) = none
      rcases finishTask_cases id' outcome dur s with hc | ⟨f, _, htasks, _⟩
      · rw [hc]; exact hn
      · show findTask id (finishTask id' outcome dur s).tasks = none
        rw [htasks, findTask_eq_none_iff, keys_map_updEntry]
        exact (findTask_eq_none_iff _ _).1 hn
  | cancel id' =>
      show lookupTask id (cancelTask id' s).2 = none
      rcases cancelTask_cases id' s with hc | hc
      · rw [hc]; exact hn
      · rw [hc]
        show findTask id (s.tasks.map (updEntry id' _)) = none
        rw [findTask_eq_none_iff, keys_map_updEntry]
        exact (findTask_eq_none_iff _ _).1 hn
  | cancelAll =>
      show lookupTask id (cancelAllTasks s) = none
      unfold cancelAllTasks
      generalize (s.tasks.map (·.1)) = ids
      induction ids generalizing s with
      | nil => exact hn
      | cons id' rest ih =>
          have hn' : lookupTask id (cancelTask id' s).2 = none := by
            rcases cancelTask_cases id' s with hc | hc
            · rw [hc]; exact hn
            · rw [hc]
              show findTask id (s.tasks.map (updEntry id' _)) = none
              rw [findTask_eq_none_iff, keys_map_updEntry]
              exact (findTask_eq_none_iff _ _).1 hn
          have hid' : id ≤ (cancelTask id' s).2.task_counter := by
            rw [cancelTask_counter]
            exact hid
          simpa using ih hn' hid'
  | shutdown => rfl
  | cleanup now =>
      show findTask id (s.tasks.filter _) = none
      exact findTask_filter_none _ hn

lemma run_lookup_none (tr : List ManagerEvent) {s : ManagerState} {id : Nat}
    (hn : lookupTask id s = none) (hid : id ≤ s.task_counter) :
    lookupTask id (managerRunFrom s tr) = none := by
  induction tr generalizing s with
  | nil => exact hn
  | cons e rest ih =>
      have hstep := step_lookup_none e hn hid
      have hid' := le_trans hid (managerStep_counter_le s e)
      simpa [managerRunFrom] using ih hstep hid'

lemma key_le_counter {s : ManagerState} {id : Nat} {t : PendingTask}
    (hwf : ManagerWF s) (hl : lookupTask id s = some t) :
    id ≤ s.task_counter := by
  have hm := mem_keys_of_findTask_some hl
  simp only [List.mem_map] at hm
  obtain ⟨kt, hkt, hfst⟩ := hm
  rw [← hfst]
  exact hwf.1 kt hkt

lemma terminal_stable_run (tr : List ManagerEvent) {s : ManagerState} {id : Nat}
    {t : PendingTask} (hwf : ManagerWF s) (hl : lookupTask id s = some t)
    (ht : t.status.isTerminal = true) :
    lookupTask id (managerRunFrom s tr) = none ∨
      lookupTask id (managerRunFrom s tr) = some t := by
  induction tr generalizing s with
  | nil => exact Or.inr hl
  | cons e rest ih =>
      have hwf' := managerStep_WF s e hwf
      rcases terminal_stable_step e hwf.2 hl ht with hnone | hsome
      · left
        have hid : id ≤ (managerStep s e).task_counter :=
          le_trans (key_le_counter hwf hl) (managerStep_counter_le s e)
        simpa [managerRunFrom] using run_lookup_none rest hnone hid
      · have := ih hwf' hsome
        simpa [managerRunFrom] using this

lemma initManager_WF (cfg : TaskManagerConfig) (cbs : CallbackCfg) :
    ManagerWF (initManagerState cfg cbs) :=
  ⟨by intro kt hkt; simp [initManagerState] at hkt, by simp [initManagerState]⟩

lemma managerRun_WF (cfg : TaskManagerConfig) (cbs : CallbackCfg)
    (tr : List ManagerEvent) : ManagerWF (managerRun cfg cbs tr) := by
  unfold managerRun
  induction tr using List.reverseRecOn with
  | nil => exact initManager_WF cfg cbs
  | append_singleton rest e ih =>
      have := managerStep_WF (managerRunFrom (initManagerState cfg cbs) rest) e ih
      simpa [managerRunFrom, List.foldl_append] using this

/-- **C5.** Every spawned task's tracking wrapper resolves to exactly one
terminal status, and once a task is terminal no later manager operation
(`finish` delivery, `cancel_task`, `cancel_all`, `shutdown`, or the
cleanup sweep) ever changes its recorded state: along any further event
trace the task either keeps its exact terminal record or is dropped from
the registry, and a `finish` delivered to a RUNNING task always lands in
a terminal status. -/
theorem task_terminal_state_never_changes
    (cfg : TaskManagerConfig) (cbs : CallbackCfg) (tr : List ManagerEvent)
    (id : Nat) (t : PendingTask)
    (hl : lookupTask id (managerRun cfg cbs tr) = some t) :
    (t.status.isTerminal = true →
      ∀ extra : List ManagerEvent,
        lookupTask id (managerRunFrom (managerRun cfg cbs tr) extra) = none
        ∨ lookupTask id (managerRunFrom (managerRun cfg cbs tr) extra) = some t)
    ∧ (t.status = TaskStatus.running →
      ∀ (outcome : WorkOutcome) (dur : ℚ), ∃ t',
        lookupTask id (finishTask id outcome dur (managerRun cfg cbs tr)) = some t'
        ∧ t'.status.isTerminal = true) := by
  constructor
  · intro ht extra
    exact terminal_stable_run extra (managerRun_WF cfg cbs tr) hl ht
  · intro hrun outcome dur
    have hl' : findTask id (managerRun cfg cbs tr).tasks = some t := hl
    unfold finishTask
    rw [show lookupTask id (managerRun cfg cbs tr) = some t from hl]
    dsimp only
    rw [if_pos hrun]
    cases outcome with
    | completes d =>
        refine ⟨{ t with
          status := TaskStatus.completed
          result := some (TaskResult.mk true d none dur) }, ?_, rfl⟩
        show findTask id ((managerRun cfg cbs tr).tasks.map (updEntry id _)) = _
        rw [findTask_update_self, hl']
        rfl
    | timesOut =>
        refine ⟨{ t with
          status := TaskStatus.timeout
          result := some (TaskResult.mk false none
            (some ("Task timed out after " ++ fmtFloat t.timeout ++ "s")) dur) }, ?_, rfl⟩
        show findTask id ((managerRun cfg cbs tr).tasks.map (updEntry id _)) = _
        rw [findTask_update_self, hl']
        rfl
    | fails msg =>
        refine ⟨{ t with
          status := TaskStatus.failed
          result := some (TaskResult.mk false none (some msg) dur) }, ?_, rfl⟩
        show findTask id ((managerRun cfg cbs tr).tasks.map (updEntry id _)) = _
        rw [findTask_update_self, hl']
        rfl

/-- Closed instance of C5: a completed task survives a `cancel_task`
attempt unchanged, and a `finish` on a running task lands terminal. -/
theorem task_terminal_state_never_changes_witness :
    (lookupTask 1 (managerRunFrom
        (managerRun defaultTaskManagerConfig ⟨none, none, none⟩
          [ManagerEvent.spawn "find ORD-5001" none 0,
           ManagerEvent.finish 1 (WorkOutcome.completes none) 5])
        [ManagerEvent.cancel 1]) = none
      ∨ lookupTask 1 (managerRunFrom
          (managerRun defaultTaskManagerConfig ⟨none, none, none⟩
            [ManagerEvent.spawn "find ORD-5001" none 0,
             ManagerEvent.finish 1 (WorkOutcome.completes none) 5])
          [ManagerEvent.cancel 1])
        = some ⟨"find ORD-5001", TaskStatus.completed,
            some ⟨true, none, none, 5⟩, 0, 30⟩)
    ∧ ∃ t', lookupTask 1 (finishTask 1 WorkOutcome.timesOut 7
        (managerRun defaultTaskManagerConfig ⟨none, none, none⟩
          [ManagerEvent.spawn "find ORD-5001" none 0])) = some t'
        ∧ t'.status.isTerminal = true := by
  constructor
  · exact (task_terminal_state_never_changes defaultTaskManagerConfig
      ⟨none, none, none⟩
      [ManagerEvent.spawn "find ORD-5001" none 0,
       ManagerEvent.finish 1 (WorkOutcome.completes none) 5]
      1 ⟨"find ORD-5001", TaskStatus.completed, some ⟨true, none, none, 5⟩, 0, 30⟩
      rfl).1 rfl [ManagerEvent.cancel 1]
  · exact (task_terminal_state_never_changes defaultTaskManagerConfig
      ⟨none, none, none⟩ [ManagerEvent.spawn "find ORD-5001" none 0]
      1 ⟨"find ORD-5001", TaskStatus.running, none, 0, 30⟩
      rfl).2 rfl WorkOutcome.timesOut 7

lemma isSubstrL_middle (a b c : List Char) : isSubstrL b (a ++ b ++ c) = true := by
  unfold isSubstrL
  rw [List.any_eq_true]
  refine ⟨a.length, ?_, ?_⟩
  · rw [List.mem_range, List.length_append, List.length_append]
    omega
  · rw [List.append_assoc, List.drop_left, List.isPrefixOf_iff_prefix]
    exact List.prefix_append b c

lemma strContains_middle (a b c : String) : strContains (a ++ b ++ c) b = true := by
  unfold strContains
  have h : (a ++ b ++ c).toList = a.toList ++ b.toList ++ c.toList := rfl
  rw [h]
  exact isSubstrL_middle a.toList b.toList c.toList

lemma fireCallback_some (b : Bool) (inv : CallbackInvocation)
    (log : List CallbackInvocation) :
    fireCallback (some b) inv log = log ++ [inv] := by
  unfold fireCallback runCallback
  cases b <;> rfl

lemma spawnTask_callbacks (q : String) (t : Option ℚ) (now : ℚ) (s : ManagerState) :
    (spawnTask q t now s).2.callbacks = s.callbacks := by
  unfold spawnTask
  by_cases h : can_accept_task s = true
  · rw [if_neg (not_not_intro h)]
  · rw [if_pos h]

lemma finishTask_callbacks (id : Nat) (outcome : WorkOutcome) (dur : ℚ)
    (s : ManagerState) : (finishTask id outcome dur s).callbacks = s.callbacks := by
  unfold finishTask
  cases lookupTask id s with
  | none => rfl
  | some p =>
      dsimp only
      by_cases hp : p.status = TaskStatus.running
      · rw [if_pos hp]
        cases outcome <;> rfl
      · rw [if_neg hp]

lemma cancelTask_callbacks (id : Nat) (s : ManagerState) :
    (cancelTask id s).2.callbacks = s.callbacks := by
  rcases cancelTask_cases id s with hc | hc
  · rw [hc]
  · rw [hc]
    rfl

lemma foldlCancel_callbacks (ids : List Nat) (s : ManagerState) :
    (ids.foldl (fun s id => (cancelTask id s).2) s).callbacks = s.callbacks := by
  induction ids generalizing s with
  | nil => rfl
  | cons id rest ih =>
      simpa [cancelTask_callbacks] using ih (cancelTask id s).2

lemma managerStep_callbacks (s : ManagerState) (e : ManagerEvent) :
    (managerStep s e).callbacks = s.callbacks := by
  cases e with
  | spawn q t now => exact spawnTask_callbacks q t now s
  | finish id outcome dur => exact finishTask_callbacks id outcome dur s
  | cancel id => exact cancelTask_callbacks id s
  | cancelAll => exact foldlCancel_callbacks _ s
  | shutdown =>
      show (shutdownManager s).callbacks = s.callbacks
      unfold shutdownManager
      simpa using foldlCancel_callbacks
        ((s.tasks.filter (fun kt => kt.2.status.isActive)).map (·.1)) s
  | cleanup now => rfl

lemma managerRun_callbacks (cfg : TaskManagerConfig) (cbs : CallbackCfg)
    (tr : List ManagerEvent) : (managerRun cfg cbs tr).callbacks = cbs := by
  unfold managerRun
  induction tr using List.reverseRecOn with
  | nil => rfl
  | append_singleton rest e ih =>
      have hstep := managerStep_callbacks (managerRunFrom (initManagerState cfg cbs) rest) e
      rw [managerRunFrom, List.foldl_append]
      rw [managerRunFrom] at ih hstep
      rw [show List.foldl managerStep (List.foldl managerStep (initManagerState cfg cbs) rest) [e]
        = managerStep (List.foldl managerStep (initManagerState cfg cbs) rest) e from rfl]
      rw [hstep]
      exact ih

/-- **C6.** After a `spawn` with non-zero timeout `tq` that is admitted, a
`TimeoutError` outcome for the new task: sets its status to TIMEOUT (never
COMPLETED — the final conjunct keeps it TIMEOUT, or dropped, over every
further trace), stores an unsuccessful result whose synthetic message
`"Task timed out after {tq}s"` contains `"timed out after {tq}"`, and
appends the registered error callback invocation to the callback log. -/
theorem task_timeout_transitions_to_timeout
    (cfg : TaskManagerConfig) (cbs : CallbackCfg) (tr : List ManagerEvent)
    (q : String) (tq now dur : ℚ) (htq : tq ≠ 0)
    (hcap : can_accept_task (managerRun cfg cbs tr) = true) :
    (spawnTask q (some tq) now (managerRun cfg cbs tr)).1
      = some ((managerRun cfg cbs tr).task_counter + 1)
    ∧ (lookupTask ((managerRun cfg cbs tr).task_counter + 1)
        (finishTask ((managerRun cfg cbs tr).task_counter + 1)
          WorkOutcome.timesOut dur
          (spawnTask q (some tq) now (managerRun cfg cbs tr)).2)).map
        PendingTask.status = some TaskStatus.timeout
    ∧ (lookupTask ((managerRun cfg cbs tr).task_counter + 1)
        (finishTask ((managerRun cfg cbs tr).task_counter + 1)
          WorkOutcome.timesOut dur
          (spawnTask q (some tq) now (managerRun cfg cbs tr)).2)).map
        PendingTask.result = some (some
          ⟨false, none, some ("Task timed out after " ++ fmtFloat tq ++ "s"), dur⟩)
    ∧ strContains ("Task timed out after " ++ fmtFloat tq ++ "s")
        ("timed out after " ++ fmtFloat tq) = true
    ∧ (∀ b : Bool, cbs.on_error = some b →
        (finishTask ((managerRun cfg cbs tr).task_counter + 1)
          WorkOutcome.timesOut dur
          (spawnTask q (some tq) now (managerRun cfg cbs tr)).2).callback_log
        = (spawnTask q (some tq) now (managerRun cfg cbs tr)).2.callback_log ++
          [CallbackInvocation.error ((managerRun cfg cbs tr).task_counter + 1) q
            ("Timeout after " ++ fmtFloat tq ++ "s")])
    ∧ ∀ extra : List ManagerEvent,
        lookupTask ((managerRun cfg cbs tr).task_counter + 1)
          (managerRunFrom
            (finishTask ((managerRun cfg cbs tr).task_counter + 1)
              WorkOutcome.timesOut dur
              (spawnTask q (some tq) now (managerRun cfg cbs tr)).2) extra) = none
        ∨ (lookupTask ((managerRun cfg cbs tr).task_counter + 1)
            (managerRunFrom
              (finishTask ((managerRun cfg cbs tr).task_counter + 1)
                WorkOutcome.timesOut dur
                (spawnTask q (some tq) now (managerRun cfg cbs tr)).2) extra)).map
            PendingTask.status = some TaskStatus.timeout := by
  have hwf := managerRun_WF cfg cbs tr
  have hcbs := managerRun_callbacks cfg cbs tr
  have heff : effectiveTimeout (managerRun cfg cbs tr).config (some tq) = tq := by
    unfold effectiveTimeout
    dsimp only
    rw [if_neg htq]
  have hspawn : spawnTask q (some tq) now (managerRun cfg cbs tr) =
      (some ((managerRun cfg cbs tr).task_counter + 1),
        { managerRun cfg cbs tr with
          tasks := (managerRun cfg cbs tr).tasks ++
            [((managerRun cfg cbs tr).task_counter + 1,
              ({ query := q, status := TaskStatus.running, result := none,
                 created_at := now, timeout := tq } : PendingTask))]
          task_counter := (managerRun cfg cbs tr).task_counter + 1
          callback_log := fireCallback (managerRun cfg cbs tr).callbacks.on_start
            (CallbackInvocation.start ((managerRun cfg cbs tr).task_counter + 1) q)
            (managerRun cfg cbs tr).callback_log }) := by
    unfold spawnTask
    rw [if_neg (not_not_intro hcap), heff]
  have hfresh : findTask ((managerRun cfg cbs tr).task_counter + 1)
      (managerRun cfg cbs tr).tasks = none := by
    rw [findTask_eq_none_iff]
    intro hm
    simp only [List.mem_map] at hm
    obtain ⟨kt, hkt, hfst⟩ := hm
    have := hwf.1 kt hkt
    omega
  rw [hspawn]
  have hlookApp : findTask ((managerRun cfg cbs tr).task_counter + 1)
      ((managerRun cfg cbs tr).tasks ++
        [((managerRun cfg cbs tr).task_counter + 1,
          ({ query := q, status := TaskStatus.running, result := none,
             created_at := now, timeout := tq } : PendingTask))]) =
      some { query := q, status := TaskStatus.running, result := none,
             created_at := now, timeout := tq } := by
    rw [findTask_append_none _ hfresh, findTask_cons, if_pos rfl]
  have hfin : finishTask ((managerRun cfg cbs tr).task_counter + 1)
      WorkOutcome.timesOut dur
      { managerRun cfg cbs tr with
        tasks := (managerRun cfg cbs tr).tasks ++
          [((managerRun cfg cbs tr).task_counter + 1,
            ({ query := q, status := TaskStatus.running, result := none,
               created_at := now, timeout := tq } : PendingTask))]
        task_counter := (managerRun cfg cbs tr).task_counter + 1
        callback_log := fireCallback (managerRun cfg cbs tr).callbacks.on_start
          (CallbackInvocation.start ((managerRun cfg cbs tr).task_counter + 1) q)
          (managerRun cfg cbs tr).callback_log } =
      { managerRun cfg cbs tr with
        tasks := ((managerRun cfg cbs tr).tasks ++
          [((managerRun cfg cbs tr).task_counter + 1,
            ({ query := q, status := TaskStatus.running, result := none,
               created_at := now, timeout := tq } : PendingTask))]).map
          (updEntry ((managerRun cfg cbs tr).task_counter + 1)
            (fun t => { t with
              status := TaskStatus.timeout
              result := some (TaskResult.mk false none
                (some ("Task timed out after " ++ fmtFloat tq ++ "s")) dur) }))
        task_counter := (managerRun cfg cbs tr).task_counter + 1
        callback_log := fireCallback (managerRun cfg cbs tr).callbacks.on_error
          (CallbackInvocation.error ((managerRun cfg cbs tr).task_counter + 1) q
            ("Timeout after " ++ fmtFloat tq ++ "s"))
          (fireCallback (managerRun cfg cbs tr).callbacks.on_start
            (CallbackInvocation.start ((managerRun cfg cbs tr).task_counter + 1) q)
            (managerRun cfg cbs tr).callback_log) } := by
    unfold finishTask
    rw [show lookupTask ((managerRun cfg cbs tr).task_counter + 1)
        { managerRun cfg cbs tr with
          tasks := (managerRun cfg cbs tr).tasks ++
            [((managerRun cfg cbs tr).task_counter + 1,
              ({ query := q, status := TaskStatus.running, result := none,
                 created_at := now, timeout := tq } : PendingTask))]
          task_counter := (managerRun cfg cbs tr).task_counter + 1
          callback_log := fireCallback (managerRun cfg cbs tr).callbacks.on_start
            (CallbackInvocation.start ((managerRun cfg cbs tr).task_counter + 1) q)
            (managerRun cfg cbs tr).callback_log } =
        some { query := q, status := TaskStatus.running, result := none,
               created_at := now, timeout := tq } from hlookApp]
    dsimp only
    rw [if_pos rfl]
    rfl
  rw [hfin]
  have hlookFin : findTask ((managerRun cfg cbs tr).task_counter + 1)
      (((managerRun cfg cbs tr).tasks ++
        [((managerRun cfg cbs tr).task_counter + 1,
          ({ query := q, status := TaskStatus.running, result := none,
             created_at := now, timeout := tq } : PendingTask))]).map
        (updEntry ((managerRun cfg cbs tr).task_counter + 1)
          (fun t => { t with
            status := TaskStatus.timeout
            result := some (TaskResult.mk false none
              (some ("Task timed out after " ++ fmtFloat tq ++ "s")) dur) }))) =
      some { query := q, status := TaskStatus.timeout
             result := some (TaskResult.mk false none
               (some ("Task timed out after " ++ fmtFloat tq ++ "s")) dur)
             created_at := now, timeout := tq } := by
    rw [findTask_update_self, hlookApp]
    rfl
  refine ⟨rfl, ?_, ?_, ?_, ?_, ?_⟩
  · show (findTask _ _).map PendingTask.status = _
    rw [hlookFin]
    rfl
  · show (findTask _ _).map PendingTask.result = _
    rw [hlookFin]
    rfl
  · have heq : ("Task timed out after " ++ fmtFloat tq ++ "s")
        = "Task " ++ ("timed out after " ++ fmtFloat tq) ++ "s" := by
      congr 1
    rw [heq]
    exact strContains_middle _ _ _
  · intro b hb
    show fireCallback (managerRun cfg cbs tr).callbacks.on_error _ _ = _
    rw [hcbs, hb, fireCallback_some]
  · intro extra
    have hwfApp : ManagerWF
        { managerRun cfg cbs tr with
          tasks := (managerRun cfg cbs tr).tasks ++
            [((managerRun cfg cbs tr).task_counter + 1,
              ({ query := q, status := TaskStatus.running, result := none,
                 created_at := now, timeout := tq } : PendingTask))]
          task_counter := (managerRun cfg cbs tr).task_counter + 1
          callback_log := fireCallback (managerRun cfg cbs tr).callbacks.on_start
            (CallbackInvocation.start ((managerRun cfg cbs tr).task_counter + 1) q)
            (managerRun cfg cbs tr).callback_log } := by
      have hstep := managerStep_WF (managerRun cfg cbs tr)
        (ManagerEvent.spawn q (some tq) now) hwf
      rw [show managerStep (managerRun cfg cbs tr) (ManagerEvent.spawn q (some tq) now)
        = (spawnTask q (some tq) now (managerRun cfg cbs tr)).2 from rfl, hspawn] at hstep
      exact hstep
    have hwfFin : ManagerWF
        { managerRun cfg cbs tr with
          tasks := (((managerRun cfg cbs tr).tasks ++
            [((managerRun cfg cbs tr).task_counter + 1,
              ({ query := q, status := TaskStatus.running, result := none,
                 created_at := now, timeout := tq } : PendingTask))]).map
            (updEntry ((managerRun cfg cbs tr).task_counter + 1)
              (fun t => { t with
                status := TaskStatus.timeout
                result := some (TaskResult.mk false none
                  (some ("Task timed out after " ++ fmtFloat tq ++ "s")) dur) })))
          task_counter := (managerRun cfg cbs tr).task_counter + 1
          callback_log := fireCallback (managerRun cfg cbs tr).callbacks.on_error
            (CallbackInvocation.error ((managerRun cfg cbs tr).task_counter + 1) q
              ("Timeout after " ++ fmtFloat tq ++ "s"))
            (fireCallback (managerRun cfg cbs tr).callbacks.on_start
              (CallbackInvocation.start ((managerRun cfg cbs tr).task_counter + 1) q)
              (managerRun cfg cbs tr).callback_log) } := by
      have hstep := managerStep_WF _
        (ManagerEvent.finish ((managerRun cfg cbs tr).task_counter + 1)
          WorkOutcome.timesOut dur) hwfApp
      rw [show managerStep _ (ManagerEvent.finish ((managerRun cfg cbs tr).task_counter + 1)
          WorkOutcome.timesOut dur) = finishTask ((managerRun cfg cbs tr).task_counter + 1)
          WorkOutcome.timesOut dur _ from rfl, hfin] at hstep
      exact hstep
    rcases terminal_stable_run extra hwfFin hlookFin rfl with hnone | hsome
    · exact Or.inl hnone
    · right
      rw [hsome]
      rfl

/-- Closed instance of C6: an admitted spawn with `timeout = 0.1` whose work
times out; the spawn is accepted as task 1 and the synthetic message
contains `"timed out after 0.1"`. -/
theorem task_timeout_transitions_to_timeout_witness :
    (spawnTask "lookup ORD-5001" (some ratTenth) 0
      (managerRun defaultTaskManagerConfig ⟨none, none, some false⟩ [])).1 = some 1
    ∧ strContains ("Task timed out after " ++ fmtFloat ratTenth ++ "s")
        ("timed out after " ++ fmtFloat ratTenth) = true := by
  have h := task_timeout_transitions_to_timeout defaultTaskManagerConfig
    ⟨none, none, some false⟩ [] "lookup ORD-5001" ratTenth 0 100
    (by decide) (by decide)
  exact ⟨h.1, h.2.2.2.1⟩

lemma updateTask_callbacks (id : Nat) (f : PendingTask → PendingTask)
    (s : ManagerState) : (updateTask id f s).callbacks = s.callbacks := rfl

lemma updateTask_callback_log (id : Nat) (f : PendingTask → PendingTask)
    (s : ManagerState) : (updateTask id f s).callback_log = s.callback_log := rfl

lemma fireCallback_stripRaises (cb : Option Bool) (inv : CallbackInvocation)
    (log : List CallbackInvocation) :
    fireCallback (cb.map (fun _ => false)) inv log = fireCallback cb inv log := by
  cases cb with
  | none => rfl
  | some b =>
      show fireCallback (some false) inv log = fireCallback (some b) inv log
      rw [fireCallback_some, fireCallback_some]

/-- **C10.** A raising start/complete/error callback is contained inside the
manager: `spawn` returns the same task id, and the registry (every task's
status and result) and even the invocation log are identical to the run in
which no callback raises — the `try/except` guard (`fireCallback`)
swallows the exception on both paths, so nothing propagates to the
caller. -/
theorem callback_exceptions_are_contained
    (s : ManagerState) (q : String) (tmo : Option ℚ) (now dur : ℚ)
    (id : Nat) (outcome : WorkOutcome) :
    (spawnTask q tmo now s).1 =
      (spawnTask q tmo now { s with callbacks := stripRaises s.callbacks }).1
    ∧ (spawnTask q tmo now s).2.tasks =
        (spawnTask q tmo now { s with callbacks := stripRaises s.callbacks }).2.tasks
    ∧ (spawnTask q tmo now s).2.callback_log =
        (spawnTask q tmo now { s with callbacks := stripRaises s.callbacks }).2.callback_log
    ∧ (finishTask id outcome dur s).tasks =
        (finishTask id outcome dur { s with callbacks := stripRaises s.callbacks }).tasks
    ∧ (finishTask id outcome dur s).callback_log =
        (finishTask id outcome dur { s with callbacks := stripRaises s.callbacks }).callback_log := by
  have hacc : can_accept_task { s with callbacks := stripRaises s.callbacks }
      = can_accept_task s := rfl
  have hlu : ∀ i, lookupTask i { s with callbacks := stripRaises s.callbacks }
      = lookupTask i s := fun _ => rfl
  refine ⟨?_, ?_, ?_, ?_, ?_⟩
  · unfold spawnTask
    rw [hacc]
    by_cases h : can_accept_task s = true
    · rw [if_neg (not_not_intro h), if_neg (not_not_intro h)]
    · rw [if_pos h, if_pos h]
  · unfold spawnTask
    rw [hacc]
    by_cases h : can_accept_task s = true
    · rw [if_neg (not_not_intro h), if_neg (not_not_intro h)]
    · rw [if_pos h, if_pos h]
  · unfold spawnTask
    rw [hacc]
    by_cases h : can_accept_task s = true
    · rw [if_neg (not_not_intro h), if_neg (not_not_intro h)]
      dsimp only
      rw [show (stripRaises s.callbacks).on_start
        = s.callbacks.on_start.map (fun _ => false) from rfl]
      rw [fireCallback_stripRaises]
    · rw [if_pos h, if_pos h]
  · unfold finishTask
    rw [hlu id]
    cases hl : lookupTask id s with
    | none => rfl
    | some p =>
        dsimp only
        by_cases hp : p.status = TaskStatus.running
        · rw [if_pos hp, if_pos hp]
          cases outcome <;> rfl
        · rw [if_neg hp, if_neg hp]
  · unfold finishTask
    rw [hlu id]
    cases hl : lookupTask id s with
    | none => rfl
    | some p =>
        dsimp only
        by_cases hp : p.status = TaskStatus.running
        · rw [if_pos hp, if_pos hp]
          cases outcome with
          | completes d =>
              simp only [updateTask_callbacks, updateTask_callback_log]
              rw [show (stripRaises s.callbacks).on_complete
                = s.callbacks.on_complete.map (fun _ => false) from rfl]
              rw [fireCallback_stripRaises]
          | timesOut =>
              simp only [updateTask_callbacks, updateTask_callback_log]
              rw [show (stripRaises s.callbacks).on_error
                = s.callbacks.on_error.map (fun _ => false) from rfl]
              rw [fireCallback_stripRaises]
          | fails msg =>
              simp only [updateTask_callbacks, updateTask_callback_log]
              rw [show (stripRaises s.callbacks).on_error
                = s.callbacks.on_error.map (fun _ => false) from rfl]
              rw [fireCallback_stripRaises]
        · rw [if_neg hp, if_neg hp]

lemma countCreates_append_cancel (l : List VoiceCommand) :
    countCreates (l ++ [VoiceCommand.responseCancel]) = countCreates l := by
  unfold countCreates
  rw [List.countP_append]
  rfl

lemma countCreates_append_create (l : List VoiceCommand) :
    countCreates (l ++ [VoiceCommand.responseCreate]) = countCreates l + 1 := by
  unfold countCreates
  rw [List.countP_append]
  rfl

lemma cancel_response_flags (s : VoiceState) :
    (cancel_response s).connected = s.connected
    ∧ (cancel_response s).session_ready = s.session_ready
    ∧ (cancel_response s).active_response = s.active_response
    ∧ (cancel_response s).response_api_done = s.response_api_done
    ∧ (cancel_response s).pending_response_request = s.pending_response_request
    ∧ countCreates (cancel_response s).sent = countCreates s.sent := by
  unfold cancel_response
  by_cases h : s.connected = true ∧ s.active_response = true
  · rw [if_neg (not_not_intro h)]
    exact ⟨rfl, rfl, rfl, rfl, rfl, countCreates_append_cancel s.sent⟩
  · rw [if_pos h]
    exact ⟨rfl, rfl, rfl, rfl, rfl, rfl⟩

/-- **C7.** While a response is active and not yet finalized,
`request_response` (with or without interrupt) issues no new
`response.create` and sets the pending flag instead; and when
`RESPONSE_DONE` arrives with the pending flag set, the flag is cleared and
exactly one deferred `response.create` is issued — at most one request is
coalesced and a deferred request is never dropped. -/
theorem request_response_coalesces_exactly_one
    (s : VoiceState) (interrupt : Bool)
    (hconn : s.connected = true) (hready : s.session_ready = true)
    (hact : s.active_response = true) (hdone : s.response_api_done = false) :
    ((request_response interrupt s).pending_response_request = true
      ∧ countCreates (request_response interrupt s).sent = countCreates s.sent)
    ∧ ∀ s2 : VoiceState, s2.pending_response_request = true → s2.connected = true →
        (handle_response_done s2).pending_response_request = false
        ∧ countCreates (handle_response_done s2).sent = countCreates s2.sent + 1 := by
  constructor
  · unfold request_response
    rw [if_neg (not_not_intro ⟨hconn, hready⟩)]
    have hflags := cancel_response_flags s
    cases interrupt with
    | false =>
        dsimp only
        rw [if_pos ⟨hact, hdone⟩]
        exact ⟨rfl, rfl⟩
    | true =>
        dsimp only
        rw [show (if true = true then cancel_response s else s) = cancel_response s
          from if_pos rfl]
        rw [if_pos (by
          rw [hflags.2.2.1, hflags.2.2.2.1]
          exact ⟨hact, hdone⟩)]
        exact ⟨rfl, hflags.2.2.2.2.2⟩
  · intro s2 hpend hconn2
    unfold handle_response_done
    dsimp only
    rw [if_pos ⟨hpend, hconn2⟩]
    exact ⟨rfl, countCreates_append_create s2.sent⟩

/-- Closed instance of C7: a deferred request during an active turn is
issued exactly once at `RESPONSE_DONE`. -/
theorem request_response_coalesces_exactly_one_witness :
    ((request_response false ⟨true, true, true, false, false, []⟩).pending_response_request = true
      ∧ countCreates (request_response false ⟨true, true, true, false, false, []⟩).sent
          = countCreates ([] : List VoiceCommand))
    ∧ (handle_response_done ⟨true, true, true, false, true, []⟩).pending_response_request = false
    ∧ countCreates (handle_response_done ⟨true, true, true, false, true, []⟩).sent
        = countCreates ([] : List VoiceCommand) + 1 := by
  have h := request_response_coalesces_exactly_one
    ⟨true, true, true, false, false, []⟩ false rfl rfl rfl rfl
  exact ⟨h.1, h.2 ⟨true, true, true, false, true, []⟩ rfl rfl⟩

/-- **C8 (counterexample).** With the default classifier configuration,
`classify("Hallo, wie geht es dir?")` returns SIMPLE, not CONVERSATIONAL
(the default keyword lists are English-only), and
`classify("Wo ist meine Bestellung ORD-5001?")` also returns SIMPLE, not
DATA_LOOKUP. -/
theorem scenarioA_classify_returns_simple :
    (classify "Hallo, wie geht es dir?").query_type = QueryType.SIMPLE
    ∧ QueryType.SIMPLE ≠ QueryType.CONVERSATIONAL
    ∧ (classify "Wo ist meine Bestellung ORD-5001?").query_type = QueryType.SIMPLE
    ∧ QueryType.SIMPLE ≠ QueryType.DATA_LOOKUP := by
  refine ⟨by decide, by decide, by decide, by decide⟩

/-- **C8 (amended).** With the default (English-keyword) configuration,
both German scenario inputs classify as SIMPLE with confidence 1.0 (no
conversational keyword and no data keyword or pattern matches), while
`extract_order_id` does extract `"ORD-5001"` from the second input. -/
theorem scenarioA_amended_simple_and_order_id :
    classify "Hallo, wie geht es dir?"
      = ⟨QueryType.SIMPLE, 20, [], some "No data lookup indicators found"⟩
    ∧ classify "Wo ist meine Bestellung ORD-5001?"
      = ⟨QueryType.SIMPLE, 20, [], some "No data lookup indicators found"⟩
    ∧ extract_order_id "Wo ist meine Bestellung ORD-5001?" = some "ORD-5001" := by
  refine ⟨by decide, by decide, by decide⟩

/-- **C9 (counterexample).** From a fresh conversation state,
`decide("Meine Kundennummer ist C-1001")` returns PASS_THROUGH, not a
LOOKUP keyed by customer name: "Kundennummer" matches no domain-intent
keyword and the agent is not awaiting an identifier. -/
theorem scenarioE_pass_through_not_lookup :
    (decide initOrderConversationState "Meine Kundennummer ist C-1001").2.type
      = OrderAgentActionType.PASS_THROUGH
    ∧ OrderAgentActionType.PASS_THROUGH ≠ OrderAgentActionType.LOOKUP := by
  refine ⟨by decide, by decide⟩

/-- **C9 (amended).** With a fresh state the utterance
`"Meine Kundennummer ist C-1001"` fails the intent gate (no word of
`_ORDER_INTENT_RE` occurs and `awaiting_identifier` is false), so the
agent passes through, leaving the state unchanged and extracting
nothing. -/
theorem scenarioE_amended_pass_through :
    decide initOrderConversationState "Meine Kundennummer ist C-1001"
      = (initOrderConversationState,
         ⟨OrderAgentActionType.PASS_THROUGH, none, none⟩)
    ∧ extract_order_id "Meine Kundennummer ist C-1001" = none
    ∧ maybe_extract_customer_name "Meine Kundennummer ist C-1001" = none := by
  refine ⟨by decide, by decide, by decide⟩

/-- **C4 (code evaluation at the failing input).** For the transcript
`"Wo ist meine Bestellung ORD-5001?"` the agent decides a LOOKUP action,
and `_process_user_transcript` then raises
`AttributeError: LIST_ORDERS` while evaluating
`action.type in (OrderAgentActionType.LOOKUP, OrderAgentActionType.LIST_ORDERS)`
— whatever the task manager capacity — so the lookup is neither spawned
nor answered with a busy message. -/
theorem lookup_transcript_raises_attribute_error :
    (decide initOrderConversationState "Wo ist meine Bestellung ORD-5001?").2.type
      = OrderAgentActionType.LOOKUP
    ∧ ∀ can_accept : Bool,
        process_user_transcript initOrderConversationState can_accept
          "Wo ist meine Bestellung ORD-5001?"
        = Except.error (PyErr.attributeError "LIST_ORDERS") := by
  refine ⟨by decide, ?_⟩
  intro b
  cases b
  · rfl
  · rfl

end Spec2Proof
